import Mathlib

/-!
Shallow embedding of the layer/canvas editing engine of the sprite-stacking
editor: the RGBA pixel-buffer model, the raster primitives from
`src/utils/canvasUtils.ts`, the flood fill from
`src/hooks/useCanvasDrawing.ts`, the pointer-to-logical coordinate
transform `getLogicalCoords`, and the application-state reducer from
`src/hooks/useLayerManager.ts` (history, undo/redo, selection lift/stamp,
rotation, layer list operations).

Conventions of the embedding:
* A canvas / `ImageData` is a `Buffer`: width, height and a flat row-major
  list of RGBA pixels.  Canvas pixels and `ImageData` pixels are the same
  kind of object in the browser (4 bytes per pixel), so one type models both.
* A `dataURL` (lossless PNG-in-base64 encoding of a canvas) is modelled by
  the pixel content it encodes, so `toDataURL` is the identity on content.
* JavaScript numbers used as pixel indices are modelled as `Int` / `Nat`;
  the continuous quantities of the pointer transform are modelled as `ℚ`
  (exact arithmetic idealization of IEEE doubles, with the trigonometric
  functions evaluated exactly at the right-angle rotations the application
  uses).
* `uuidv4()` is modelled by explicitly supplied fresh numeric ids.
* `alert(msg)` side effects are modelled by the reducer returning the list
  of messages it raised alongside the new state.
-/

set_option linter.unusedVariables false
set_option maxRecDepth 100000

namespace SpriteStack

/-- One RGBA pixel, 8 bits per channel in the source (`Uint8ClampedArray`);
channel values live in 0..255. -/
structure Rgba where
  r : Nat
  g : Nat
  b : Nat
  a : Nat
deriving DecidableEq, Repr

/-- The fully transparent pixel, the initial content of every canvas pixel
and the value `clearRect` writes. -/
def Rgba.transparent : Rgba := ⟨0, 0, 0, 0⟩

/-- `areColorsEqual` from `src/utils/canvasUtils.ts` on two present pixels:
exact equality of all four channels. -/
def areColorsEqual (c1 c2 : Rgba) : Bool :=
  c1.r == c2.r && c1.g == c2.g && c1.b == c2.b && c1.a == c2.a

/-- A pixel grid: an HTML canvas or an `ImageData`, row-major. -/
structure Buffer where
  width : Nat
  height : Nat
  data : List Rgba
deriving DecidableEq, Repr

/-- Raw read of the flat pixel array at a linear index (out-of-range reads
of a `Uint8ClampedArray` give 0, i.e. the transparent pixel). -/
def Buffer.getAt (b : Buffer) (k : Nat) : Rgba :=
  b.data.getD k Rgba.transparent

/-- Read a pixel at integer coordinates; out-of-canvas reads give
transparent black, matching `getImageData` on out-of-bounds regions. -/
def Buffer.getI (b : Buffer) (x y : Int) : Rgba :=
  if 0 ≤ x ∧ x < b.width ∧ 0 ≤ y ∧ y < b.height then
    b.getAt (y.toNat * b.width + x.toNat)
  else Rgba.transparent

/-- A buffer is well-formed when its flat array has exactly
`width * height` pixels (always true of a real canvas / `ImageData`). -/
def Buffer.Wf (b : Buffer) : Prop := b.data.length = b.width * b.height

instance (b : Buffer) : Decidable b.Wf := by unfold Buffer.Wf; infer_instance

/-- `createOffscreenCanvas` from `src/utils/canvasUtils.ts`: a fresh canvas
of the given size; canvases start fully transparent. -/
def createOffscreenCanvas (width height : Nat) : Buffer :=
  ⟨width, height, List.replicate (width * height) Rgba.transparent⟩

/-- `ctx.fillRect(tlx, tly, rw, rh)` with an opaque fill style, and
`ctx.clearRect` when the colour is `Rgba.transparent`: every canvas pixel
inside the rectangle (clipped to the canvas) is overwritten with `c`. -/
def Buffer.fillRect (b : Buffer) (tlx tly : Int) (rw rh : Nat) (c : Rgba) : Buffer :=
  { b with data := (List.range (b.width * b.height)).map fun k =>
      if tlx ≤ (k % b.width : Nat) ∧ (k % b.width : Nat) < tlx + rw ∧
         tly ≤ (k / b.width : Nat) ∧ (k / b.width : Nat) < tly + rh then c
      else b.getAt k }

/-- `drawPixel` from `src/utils/canvasUtils.ts` (second revision): an
opaque brush stamp, a `brushSize × brushSize` `fillRect` whose top-left
corner is the centre minus `floor(brushSize / 2)`. -/
def drawPixel (b : Buffer) (centerX centerY : Int) (color : Rgba) (brushSize : Nat) : Buffer :=
  b.fillRect (centerX - (brushSize / 2 : Nat)) (centerY - (brushSize / 2 : Nat))
    brushSize brushSize color

/-- `clearPixel` from `src/utils/canvasUtils.ts` (second revision): the
same square as `drawPixel`, cleared to transparent by `clearRect`. -/
def clearPixel (b : Buffer) (centerX centerY : Int) (brushSize : Nat) : Buffer :=
  b.fillRect (centerX - (brushSize / 2 : Nat)) (centerY - (brushSize / 2 : Nat))
    brushSize brushSize Rgba.transparent

/-- `ctx.getImageData(sx, sy, rw, rh)`: copies the rectangle out of the
canvas into a fresh `rw × rh` `ImageData`; out-of-canvas source pixels read
as transparent. -/
def Buffer.getImageData (b : Buffer) (sx sy : Int) (rw rh : Nat) : Buffer :=
  ⟨rw, rh, (List.range (rw * rh)).map fun k =>
    b.getI (sx + (k % rw : Nat)) (sy + (k / rw : Nat))⟩

/-- `ctx.putImageData(img, dx, dy)`: overwrites (no blending, alpha
included) the destination rectangle with the image data, clipped to the
canvas. -/
def Buffer.putImageData (b : Buffer) (img : Buffer) (dx dy : Int) : Buffer :=
  { b with data := (List.range (b.width * b.height)).map fun k =>
      if dx ≤ (k % b.width : Nat) ∧ (k % b.width : Nat) < dx + img.width ∧
         dy ≤ (k / b.width : Nat) ∧ (k / b.width : Nat) < dy + img.height then
        img.getI ((k % b.width : Nat) - dx) ((k / b.width : Nat) - dy)
      else b.getAt k }

/-- `rotateCanvasContent` from `src/hooks/useLayerManager.ts`, which draws
the source canvas into a fresh same-size canvas through
`translate(w/2, h/2); rotate(θ); drawImage(src, -w/2, -h/2)` with image
smoothing disabled.  The reducer only calls it with θ = ±90°, where the
transform is exact: destination pixel `(x, y)`, sampled at its centre
`(x + 1/2, y + 1/2)`, reads the source pixel containing the inverse image
of that centre.  `sn` is `sin θ` (`1` for +90°, `-1` for -90°, `cos θ = 0`);
the computation is carried out in half-pixel units to stay in `Int`. -/
def rotateCanvasContent (b : Buffer) (sn : Int) : Buffer :=
  { b with data := (List.range (b.width * b.height)).map fun k =>
      b.getI (((b.width : Int) + sn * (2 * (k / b.width : Nat) + 1 - b.height)) / 2)
             (((b.height : Int) - sn * (2 * (k % b.width : Nat) + 1 - b.width)) / 2) }

/-- `getPixelFromImageData` from `src/utils/canvasUtils.ts`: `none` when
the coordinates are out of bounds, otherwise the four channels at
`(y * width + x) * 4`. -/
def getPixelFromImageData (d : Buffer) (x y : Int) : Option Rgba :=
  if 0 ≤ x ∧ x < d.width ∧ 0 ≤ y ∧ y < d.height then
    some (d.getAt (y.toNat * d.width + x.toNat))
  else none

/-- `setPixelInImageData` from `src/utils/canvasUtils.ts`: silently ignores
out-of-bounds coordinates, otherwise overwrites the four channels. -/
def setPixelInImageData (d : Buffer) (x y : Int) (c : Rgba) : Buffer :=
  if 0 ≤ x ∧ x < d.width ∧ 0 ≤ y ∧ y < d.height then
    { d with data := d.data.set (y.toNat * d.width + x.toNat) c }
  else d

/-! ## Flood fill (`floodFill` in `src/hooks/useCanvasDrawing.ts`) -/

/-- Result of the flood-fill work loop.  `abort` is the source's early
`return` when the queue exceeds the safety cap (`w * h * 2`); `done` is
normal loop exit with the modified `ImageData`.  `outOfFuel` is an
artefact of embedding the `while` loop with a fuel counter and is proved
unreachable for the fuel the wrapper supplies
(`floodLoop_ne_outOfFuel`). -/
inductive FillRes where
  | abort : FillRes
  | outOfFuel : FillRes
  | done : Buffer → FillRes
deriving DecidableEq, Repr

/-- The `while (queue.length > 0)` loop of `floodFill`: dequeue from the
front, skip pixels that no longer match the target colour, overwrite
matching pixels with the fill colour and enqueue their in-bounds
4-neighbours; bail out with `abort` whenever the queue is longer than
`w * h * 2` at the top of an iteration. -/
def floodLoop (w h : Nat) (target fill : Rgba) :
    Nat → List (Int × Int) → Buffer → FillRes
  | _, [], d => .done d
  | 0, _ :: _, _ => .outOfFuel
  | fuel + 1, (x, y) :: rest, d =>
    if ((x, y) :: rest).length > w * h * 2 then .abort
    else
      match getPixelFromImageData d x y with
      | some c =>
        if areColorsEqual c target then
          let d' := setPixelInImageData d x y fill
          let nbrs := [(x + 1, y), (x - 1, y), (x, y + 1), (x, y - 1)].filter
            fun p => decide (0 ≤ p.1 ∧ p.1 < (w : Int) ∧ 0 ≤ p.2 ∧ p.2 < (h : Int))
          floodLoop w h target fill fuel (rest ++ nbrs) d'
        else floodLoop w h target fill fuel rest d
      | none => floodLoop w h target fill fuel rest d

/-- Fuel that provably suffices for `floodLoop` to run to completion or
abort: five steps per pixel still matching the target colour, plus slack
for the initial queue entry. -/
def floodFuel (b : Buffer) (target : Rgba) : Nat :=
  5 * b.data.countP (fun px => areColorsEqual px target) + 2

/-- The outcome of the flood-fill work on the `ImageData` copy of the
canvas: `done b` without entering the loop when the seed is out of bounds
(`!targetColor`) or the target colour already equals the fill colour, the
loop's outcome otherwise. -/
def floodRun (b : Buffer) (startX startY : Int) (fill : Rgba) : FillRes :=
  match getPixelFromImageData b startX startY with
  | none => .done b
  | some target =>
    if areColorsEqual target fill then .done b
    else floodLoop b.width b.height target fill (floodFuel b target)
      [(startX, startY)] b

/-- `floodFill` from `src/hooks/useCanvasDrawing.ts`, from the point where
the fill colour has been parsed: copy the whole canvas into an `ImageData`
(`b` itself in this embedding), read the target colour at the seed, return
untouched if the seed is out of bounds or already the fill colour, run the
work loop, and only on normal completion `putImageData` the result back
(so an aborted fill leaves the canvas exactly as it was, and raises the
"Fill area too large." alert). -/
def floodFill (b : Buffer) (startX startY : Int) (fill : Rgba) :
    Buffer × List String :=
  match floodRun b startX startY fill with
  | .abort => (b, ["Fill area too large."])
  | .outOfFuel => (b, [])
  | .done d => (d, [])

/-! ## Application state (`src/state/types.ts`) -/

/-- `Tool` from `src/state/types.ts`. -/
inductive Tool where
  | pencil | eraser | eyedropper | fill | selection
deriving DecidableEq, Repr

/-- `LayerDataForHistory` from `src/state/types.ts`: the serializable
fields of a layer.  `dataURL : string | undefined` is modelled by the
pixel content the data URL encodes. -/
structure LayerData where
  id : Nat
  name : String
  isVisible : Bool
  isLocked : Bool
  opacity : ℚ
  dataURL : Option Buffer
  rotation : Int
deriving DecidableEq, Repr

/-- `Layer` from `src/state/types.ts`: the serializable fields plus the
transient `offscreenCanvas : HTMLCanvasElement | null`. -/
structure Layer extends LayerData where
  offscreenCanvas : Option Buffer
deriving DecidableEq, Repr

/-- `SelectionRect` from `src/state/types.ts`; selections are created in
logical canvas coordinates. -/
structure SelectionRect where
  x : Nat
  y : Nat
  width : Nat
  height : Nat
deriving DecidableEq, Repr

/-- `FloatingSelection` from `src/state/types.ts`. -/
structure FloatingSelection where
  imageData : Buffer
  x : Int
  y : Int
  initialPosition : Int × Int
deriving DecidableEq, Repr

/-- `ClipboardLayerData` from `src/state/types.ts`. -/
structure ClipboardLayerData where
  name : String
  isVisible : Bool
  isLocked : Bool
  opacity : ℚ
  dataURL : Option Buffer
  rotation : Int
  originalId : Option Nat
deriving DecidableEq, Repr

/-- `AppState` from `src/state/types.ts`. -/
structure AppState where
  isInitialized : Bool
  canvasWidth : Nat
  canvasHeight : Nat
  layers : List Layer
  activeLayerId : Option Nat
  selectedTool : Tool
  primaryColor : String
  zoomLevel : ℚ
  previewOffset : ℚ × ℚ
  previewRotation : ℚ
  isColorPickerOpen : Bool
  history : List (List LayerData)
  historyIndex : Int
  cameraPitch : ℚ
  clipboard : Option ClipboardLayerData
  showGrid : Bool
  cursorCoords : Option (Int × Int)
  brushSize : Nat
  selection : Option SelectionRect
  floatingSelection : Option FloatingSelection
deriving DecidableEq, Repr

/-- `MAX_HISTORY_SIZE` from `src/hooks/useLayerManager.ts`. -/
def MAX_HISTORY_SIZE : Nat := 50

/-- `serializeLayersForHistory` from `src/hooks/useLayerManager.ts`:
drop the canvas handle and snapshot each layer's current content as a
data URL (`offscreenCanvas.toDataURL()` when a canvas is live, the stored
`dataURL` otherwise). -/
def serializeLayersForHistory (layers : List Layer) : List LayerData :=
  layers.map fun l =>
    { l.toLayerData with
      dataURL := match l.offscreenCanvas with
        | some c => some c
        | none => l.dataURL }

/-- `createInitialHistoryEntry` from `src/hooks/useLayerManager.ts`. -/
def createInitialHistoryEntry (layers : List Layer) : List (List LayerData) :=
  [serializeLayersForHistory layers]

/-- `DEFAULT_CAMERA_PITCH` from `src/hooks/useLayerManager.ts`: the float
`-35.2644` as an exact rational (`-88161/2500` in lowest terms), written
as a literal so kernel reduction of state comparisons stays cheap. -/
def DEFAULT_CAMERA_PITCH : ℚ := ⟨-88161, 2500, by decide, by decide⟩

/-- `initialAppState` from `src/hooks/useLayerManager.ts` (second
revision, the one with selection state). -/
def initialAppState : AppState where
  isInitialized := false
  canvasWidth := 0
  canvasHeight := 0
  layers := []
  activeLayerId := none
  selectedTool := .pencil
  primaryColor := "#000000ff"
  zoomLevel := 4
  previewOffset := (1, 1)
  previewRotation := 0
  isColorPickerOpen := false
  history := []
  historyIndex := -1
  cameraPitch := DEFAULT_CAMERA_PITCH
  clipboard := none
  showGrid := true
  cursorCoords := none
  brushSize := 1
  selection := none
  floatingSelection := none

/-- Result of `pushToHistory`: the `Pick<AppState, 'history' | 'historyIndex'>`
returned by the source. -/
structure HistoryUpdate where
  history : List (List LayerData)
  historyIndex : Int
deriving DecidableEq, Repr

/-- `pushToHistory` from `src/hooks/useLayerManager.ts`: drop the redo
branch when the cursor is not at the end, append the snapshot, advance the
cursor, and on exceeding `MAX_HISTORY_SIZE` evict the oldest entry
(`shift()`) and decrement the cursor. -/
def pushToHistory (currentState : AppState) (newLayersSnapshot : List LayerData) :
    HistoryUpdate :=
  let newHistory := currentState.history
  let newHistoryIndex := currentState.historyIndex
  let newHistory :=
    if newHistoryIndex < (newHistory.length : Int) - 1 then
      newHistory.take (newHistoryIndex + 1).toNat
    else newHistory
  let newHistory := newHistory ++ [newLayersSnapshot]
  let newHistoryIndex := newHistoryIndex + 1
  if (newHistory.length : Int) > (MAX_HISTORY_SIZE : Int) then
    ⟨newHistory.drop 1, newHistoryIndex - 1⟩
  else
    ⟨newHistory, newHistoryIndex⟩

/-- `calculateInitialZoom` from `src/hooks/useLayerManager.ts`. -/
def calculateInitialZoom (canvasWidth canvasHeight : Nat) : ℚ :=
  let maxDim := max canvasWidth canvasHeight
  if maxDim ≤ 64 then 8 else if maxDim ≤ 128 then 4 else if maxDim ≤ 256 then 2 else 1

/-- Restoring one layer from a history snapshot on `UNDO`/`REDO`:
`{ ...data, offscreenCanvas: null, rotation: data.rotation ?? 0 }`
(the canvas is marked for hydration from the data URL). -/
def restoreLayer (data : LayerData) : Layer :=
  { data with offscreenCanvas := none }

/-- Active-layer re-selection after `UNDO`/`REDO`: keep the previous
active id when a restored layer still carries it, else the first restored
layer (or null). -/
def restoredActiveId (prevActive : Option Nat) (restored : List Layer) : Option Nat :=
  match prevActive with
  | some aid =>
    if (restored.find? fun l => l.id == aid).isSome then some aid
    else restored.head?.map (·.id)
  | none => restored.head?.map (·.id)

/-- The recurring source idiom
`state.layers.map(l => l.id === lid ? upd(l) : l)`: apply `upd` to the
layers whose id is `lid`, keep the rest. -/
def updateLayerById (layers : List Layer) (lid : Nat) (upd : Layer → Layer) : List Layer :=
  layers.map fun l => if l.id == lid then upd l else l

/-- The `ROTATE_LEFT` per-layer update: skip layers without a live canvas,
otherwise rotate the canvas content by -90 degrees and set
`rotation = (rotation - 90 + 360) % 360`. -/
def rotateLeftUpd : Layer → Layer := fun layer =>
  match layer.offscreenCanvas with
  | none => layer
  | some canvas =>
    let newRotation := (layer.rotation - 90 + 360) % 360
    let rotatedCanvas := rotateCanvasContent canvas (-1)
    { layer with
        rotation := newRotation
        offscreenCanvas := some rotatedCanvas
        dataURL := some rotatedCanvas }

/-- The `ROTATE_RIGHT` per-layer update: skip layers without a live canvas,
otherwise rotate the canvas content by +90 degrees and set
`rotation = (rotation + 90) % 360`. -/
def rotateRightUpd : Layer → Layer := fun layer =>
  match layer.offscreenCanvas with
  | none => layer
  | some canvas =>
    let newRotation := (layer.rotation + 90) % 360
    let rotatedCanvas := rotateCanvasContent canvas 1
    { layer with
        rotation := newRotation
        offscreenCanvas := some rotatedCanvas
        dataURL := some rotatedCanvas }

/-- The source idiom `{ ...l, offscreenCanvas: canvas, dataURL }`: install
a live canvas and its freshly encoded data URL on a layer. -/
def withCanvas (canvas dataURL : Buffer) : Layer → Layer := fun l =>
  { l with offscreenCanvas := some canvas, dataURL := some dataURL }

/-- The `LayerAction`s from `src/state/types.ts` that the editing-engine
claims exercise.  `uuidv4()` calls are modelled by explicit `freshId`
arguments. -/
inductive LayerAction where
  | initProject (width height layerCount : Nat)
  | addLayer (freshId : Nat)
  | deleteLayer (id : Option Nat)
  | reorderLayers (sourceIndex destinationIndex : Nat)
  | updateLayerCanvas (id : Nat) (canvas : Buffer) (dataURL : Buffer)
  | selectLayer (id : Nat)
  | undo
  | redo
  | cutLayer
  | setSelection (rect : Option SelectionRect)
  | liftSelection (clearOriginal : Bool)
  | stampFloatingSelection
  | moveFloatingSelection (newX newY : Int)
  | clearFloatingSelection
  | rotateLeft
  | rotateRight

/-- `layerReducer` from `src/hooks/useLayerManager.ts` (second revision,
with rotation and selection), restricted to the actions above.  The
returned list collects the `alert(...)` messages the branch raised.  In
branches where the source mutates the active layer's offscreen canvas in
place and then only refreshes `dataURL` in the returned state, the
embedding updates both fields of that layer, which is the same state.
JavaScript `%` on the nonnegative operands occurring here agrees with
`Int.emod`. -/
def layerReducer (state : AppState) (action : LayerAction) : AppState × List String :=
  match action with
  | .initProject width height layerCount =>
    let initialLayers : List Layer := (List.range layerCount).map fun i =>
      let newCanvas := createOffscreenCanvas width height
      { id := i, name := "Layer " ++ toString (i + 1), isVisible := true,
        isLocked := false, opacity := 1, offscreenCanvas := some newCanvas,
        dataURL := some newCanvas, rotation := 0 }
    let reversedInitialLayers := initialLayers.reverse
    ({ initialAppState with
        isInitialized := true
        canvasWidth := width
        canvasHeight := height
        layers := reversedInitialLayers
        activeLayerId := reversedInitialLayers.head?.map (·.id)
        zoomLevel := calculateInitialZoom width height
        history := createInitialHistoryEntry reversedInitialLayers
        historyIndex := 0 }, [])
  | .addLayer freshId =>
    if !state.isInitialized then (state, []) else
    let historyUpdate := pushToHistory state (serializeLayersForHistory state.layers)
    let newCanvas := createOffscreenCanvas state.canvasWidth state.canvasHeight
    let newLayer : Layer :=
      { id := freshId, name := "Layer " ++ toString (state.layers.length + 1),
        isVisible := true, isLocked := false, opacity := 1,
        offscreenCanvas := some newCanvas, dataURL := some newCanvas, rotation := 0 }
    ({ state with
        history := historyUpdate.history
        historyIndex := historyUpdate.historyIndex
        layers := newLayer :: state.layers
        activeLayerId := some freshId }, [])
  | .deleteLayer oid =>
    if state.layers.length ≤ 1 then (state, ["Cannot delete the last layer."]) else
    let layerIdToDelete := match oid with
      | some i => some i
      | none => state.activeLayerId
    match layerIdToDelete with
    | none => (state, [])
    | some did =>
      if (state.layers.find? fun l => l.id == did).isNone then (state, []) else
      let historyUpdate := pushToHistory state (serializeLayersForHistory state.layers)
      let layersAfterDelete := state.layers.filter fun l => !(l.id == did)
      let deletedIndex := state.layers.findIdx fun l => l.id == did
      let newActiveLayerId :=
        if state.activeLayerId == some did ∨ layersAfterDelete.length = 0 then
          match (layersAfterDelete.get? (deletedIndex - 1)).map (·.id) with
          | some nid => some nid
          | none => layersAfterDelete.head?.map (·.id)
        else state.activeLayerId
      ({ state with
          history := historyUpdate.history
          historyIndex := historyUpdate.historyIndex
          layers := layersAfterDelete
          activeLayerId := newActiveLayerId }, [])
  | .reorderLayers sourceIndex destinationIndex =>
    let historyUpdate := pushToHistory state (serializeLayersForHistory state.layers)
    let newLayers := match state.layers.get? sourceIndex with
      | some removed =>
        (state.layers.eraseIdx sourceIndex).insertIdx destinationIndex removed
      | none => state.layers
    ({ state with
        history := historyUpdate.history
        historyIndex := historyUpdate.historyIndex
        layers := newLayers }, [])
  | .updateLayerCanvas id canvas dataURL =>
    let historyUpdate := pushToHistory state (serializeLayersForHistory state.layers)
    ({ state with
        history := historyUpdate.history
        historyIndex := historyUpdate.historyIndex
        layers := updateLayerById state.layers id (withCanvas canvas dataURL)
        selection := none
        floatingSelection := none }, [])
  | .selectLayer id =>
    ({ state with activeLayerId := some id, selection := none, floatingSelection := none }, [])
  | .undo =>
    if state.historyIndex ≤ 0 then (state, []) else
    let newHistoryIndex := state.historyIndex - 1
    let historicalLayersData := state.history.getD newHistoryIndex.toNat []
    let restoredLayers := historicalLayersData.map restoreLayer
    ({ state with
        layers := restoredLayers
        historyIndex := newHistoryIndex
        activeLayerId := restoredActiveId state.activeLayerId restoredLayers }, [])
  | .redo =>
    if state.historyIndex ≥ (state.history.length : Int) - 1 ∨ state.historyIndex < 0 then
      (state, [])
    else
    let newHistoryIndex := state.historyIndex + 1
    let historicalLayersData := state.history.getD newHistoryIndex.toNat []
    let restoredLayers := historicalLayersData.map restoreLayer
    ({ state with
        layers := restoredLayers
        historyIndex := newHistoryIndex
        activeLayerId := restoredActiveId state.activeLayerId restoredLayers }, [])
  | .cutLayer =>
    match state.activeLayerId with
    | none => (state, [])
    | some aid =>
      match state.layers.find? fun l => l.id == aid with
      | none => (state, [])
      | some activeLayerToCut =>
        let dataURLToCopy := match activeLayerToCut.offscreenCanvas with
          | some c => some c
          | none => activeLayerToCut.dataURL
        let clipboardData : ClipboardLayerData :=
          { name := activeLayerToCut.name, isVisible := activeLayerToCut.isVisible,
            isLocked := false, opacity := activeLayerToCut.opacity,
            dataURL := dataURLToCopy, rotation := activeLayerToCut.rotation,
            originalId := some activeLayerToCut.id }
        if state.layers.length = 1 then
          ({ state with clipboard := some clipboardData },
            ["Copied last layer. Cannot cut the last layer."])
        else
        let historyUpdate := pushToHistory state (serializeLayersForHistory state.layers)
        let layersAfterCut := state.layers.filter fun l => !(l.id == aid)
        let deletedIndex := state.layers.findIdx fun l => l.id == aid
        let newActiveLayerId :=
          if state.activeLayerId == some activeLayerToCut.id ∨ layersAfterCut.length = 0 then
            match (layersAfterCut.get? (deletedIndex - 1)).map (·.id) with
            | some nid => some nid
            | none => layersAfterCut.head?.map (·.id)
          else state.activeLayerId
        ({ state with
            history := historyUpdate.history
            historyIndex := historyUpdate.historyIndex
            layers := layersAfterCut
            activeLayerId := newActiveLayerId
            clipboard := some clipboardData }, [])
  | .setSelection rect =>
    ({ state with selection := rect, floatingSelection := none }, [])
  | .liftSelection clearOriginal =>
    match state.selection, state.activeLayerId with
    | some sel, some aid =>
      (match state.layers.find? fun l => l.id == aid with
      | none => (state, [])
      | some activeLayer =>
        match activeLayer.offscreenCanvas with
        | none => (state, [])
        | some canvas =>
          let imageData := canvas.getImageData sel.x sel.y sel.width sel.height
          let newFloatingSelection : FloatingSelection :=
            { imageData := imageData, x := sel.x, y := sel.y,
              initialPosition := (sel.x, sel.y) }
          if clearOriginal then
            let historyUpdate := pushToHistory state (serializeLayersForHistory state.layers)
            let cleared := canvas.fillRect sel.x sel.y sel.width sel.height Rgba.transparent
            ({ state with
                history := historyUpdate.history
                historyIndex := historyUpdate.historyIndex
                floatingSelection := some newFloatingSelection
                selection := none
                layers := updateLayerById state.layers activeLayer.id
                  (withCanvas cleared cleared) }, [])
          else
            ({ state with
                floatingSelection := some newFloatingSelection
                selection := none }, []))
    | _, _ => (state, [])
  | .stampFloatingSelection =>
    match state.floatingSelection, state.activeLayerId with
    | some floating, some aid =>
      (match state.layers.find? fun l => l.id == aid with
      | none => (state, [])
      | some activeLayer =>
        match activeLayer.offscreenCanvas with
        | none => (state, [])
        | some canvas =>
          let historyUpdate := pushToHistory state (serializeLayersForHistory state.layers)
          let stamped := canvas.putImageData floating.imageData floating.x floating.y
          ({ state with
              history := historyUpdate.history
              historyIndex := historyUpdate.historyIndex
              floatingSelection := none
              layers := updateLayerById state.layers activeLayer.id
                (withCanvas stamped stamped) }, []))
    | _, _ => (state, [])
  | .moveFloatingSelection newX newY =>
    match state.floatingSelection with
    | none => (state, [])
    | some floating =>
      ({ state with floatingSelection := some { floating with x := newX, y := newY } }, [])
  | .clearFloatingSelection =>
    ({ state with floatingSelection := none }, [])
  | .rotateLeft =>
    match state.activeLayerId with
    | none => (state, [])
    | some aid =>
      let historyUpdate := pushToHistory state (serializeLayersForHistory state.layers)
      let rotatedLayers := updateLayerById state.layers aid rotateLeftUpd
      ({ state with
          history := historyUpdate.history
          historyIndex := historyUpdate.historyIndex
          layers := rotatedLayers }, [])
  | .rotateRight =>
    match state.activeLayerId with
    | none => (state, [])
    | some aid =>
      let historyUpdate := pushToHistory state (serializeLayersForHistory state.layers)
      let rotatedLayers := updateLayerById state.layers aid rotateRightUpd
      ({ state with
          history := historyUpdate.history
          historyIndex := historyUpdate.historyIndex
          layers := rotatedLayers }, [])

/-- Apply an action, keeping only the next state. -/
def applyA (s : AppState) (a : LayerAction) : AppState :=
  (layerReducer s a).1

/-- The pixel content a layer currently represents: the live offscreen
canvas when present, otherwise the content encoded in its data URL (what
hydration would reconstruct). -/
def layerContent (l : Layer) : Option Buffer :=
  match l.offscreenCanvas with
  | some c => some c
  | none => l.dataURL

/-- The per-layer pixel contents of a state, in stack order: the
"layer buffers, byte for byte". -/
def contentsOf (s : AppState) : List (Option Buffer) :=
  s.layers.map layerContent

/-- The active layer of a state, as `layers.find(l => l.id === activeLayerId)`. -/
def activeLayer (s : AppState) : Option Layer :=
  match s.activeLayerId with
  | some aid => s.layers.find? fun l => l.id == aid
  | none => none

/-- The pixel content of the active layer. -/
def activeContent (s : AppState) : Option Buffer :=
  (activeLayer s).bind layerContent

/-- A committed stroke or fill on layer `id`: during pointer events the
tool code draws into the layer's offscreen canvas in place, so by the time
`finalizeDrawing` (or `floodFill`) dispatches
`UPDATE_LAYER_CANVAS id canvas canvas.toDataURL()`, the canvas held in
`state.layers` already contains the new pixels `buf`.  The embedding makes
that in-place mutation explicit before applying the reducer. -/
def strokeMutate (s : AppState) (id : Nat) (buf : Buffer) : AppState :=
  { s with
    layers := updateLayerById s.layers id fun l =>
      { l with offscreenCanvas := some buf } }

/-- See `strokeMutate`: the commit dispatch itself. -/
def commitToLayer (s : AppState) (id : Nat) (buf : Buffer) : AppState :=
  applyA (strokeMutate s id buf) (.updateLayerCanvas id buf buf)

/-! ## Pointer input transform (`getLogicalCoords` in
`src/hooks/useCanvasDrawing.ts`, second revision with rotation) -/

/-- Cosine of an integer number of degrees, exact at the multiples of 90°
that layer rotations take (the `rotation` field only ever holds
0/90/180/270, and `getLogicalCoords` negates it). -/
def cosDeg (d : Int) : ℚ :=
  if d % 360 = 0 then 1
  else if d % 360 = 180 then -1
  else 0

/-- Sine of an integer number of degrees, exact at multiples of 90°. -/
def sinDeg (d : Int) : ℚ :=
  if d % 360 = 90 then 1
  else if d % 360 = 270 then -1
  else 0

/-- `getLogicalCoords` from `src/hooks/useCanvasDrawing.ts`: subtract the
canvas's bounding-rectangle origin, divide by the zoom level, and when the
active layer's rotation is non-zero translate to the logical centre, rotate
by `-rotation` degrees and translate back; floor to integers and report
`none` when the result is outside `[0, width) × [0, height)`.  `rotation`
is the active layer's rotation (`?? 0` when there is no active layer);
real arithmetic is modelled exactly by `ℚ`. -/
def getLogicalCoords (clientX clientY rectLeft rectTop zoomLevel : ℚ)
    (rotation : Int) (canvasWidth canvasHeight : Nat) : Option (Int × Int) :=
  let canvasX := clientX - rectLeft
  let canvasY := clientY - rectTop
  let logicalX := canvasX / zoomLevel
  let logicalY := canvasY / zoomLevel
  let p : ℚ × ℚ :=
    if rotation ≠ 0 then
      let centerX : ℚ := (canvasWidth : ℚ) / 2
      let centerY : ℚ := (canvasHeight : ℚ) / 2
      let translatedX := logicalX - centerX
      let translatedY := logicalY - centerY
      let c := cosDeg (-rotation)
      let s := sinDeg (-rotation)
      let rotatedX := translatedX * c - translatedY * s
      let rotatedY := translatedX * s + translatedY * c
      (rotatedX + centerX, rotatedY + centerY)
    else (logicalX, logicalY)
  let fx : Int := ⌊p.1⌋
  let fy : Int := ⌊p.2⌋
  if 0 ≤ fx ∧ fx < canvasWidth ∧ 0 ≤ fy ∧ fy < canvasHeight then some (fx, fy)
  else none

/-- Modelled from the spec's words, for comparison with `getLogicalCoords`:
"subtract the canvas's on-screen origin, divide by the current zoom factor,
apply the inverse of the active layer's rotation about the canvas's logical
center, and floor to integers; report coordinates outside
`[0,width) × [0,height)` as outside-canvas (no coordinate, never a clamped
one)."  The inverse rotation is applied unconditionally here. -/
def specLogicalCoords (clientX clientY rectLeft rectTop zoomLevel : ℚ)
    (rotation : Int) (canvasWidth canvasHeight : Nat) : Option (Int × Int) :=
  let px := (clientX - rectLeft) / zoomLevel
  let py := (clientY - rectTop) / zoomLevel
  let cx : ℚ := (canvasWidth : ℚ) / 2
  let cy : ℚ := (canvasHeight : ℚ) / 2
  let qx := (px - cx) * cosDeg (-rotation) - (py - cy) * sinDeg (-rotation) + cx
  let qy := (px - cx) * sinDeg (-rotation) + (py - cy) * cosDeg (-rotation) + cy
  if 0 ≤ ⌊qx⌋ ∧ ⌊qx⌋ < canvasWidth ∧ 0 ≤ ⌊qy⌋ ∧ ⌊qy⌋ < canvasHeight then
    some (⌊qx⌋, ⌊qy⌋)
  else none

/-! ## Concrete scenarios used by witnesses and counterexamples -/

/-- A freshly initialized `w × h` project with `n` layers. -/
def demoInit (w h n : Nat) : AppState :=
  applyA initialAppState (.initProject w h n)

/-- An opaque red pixel. -/
def redPx : Rgba := ⟨255, 0, 0, 255⟩

/-- An opaque green pixel. -/
def greenPx : Rgba := ⟨0, 255, 0, 255⟩

/-- An opaque blue pixel. -/
def bluePx : Rgba := ⟨0, 0, 255, 255⟩

/-- An opaque black pixel. -/
def blackPx : Rgba := ⟨0, 0, 0, 255⟩

/-- `k` undos in a row. -/
def undoIter (k : Nat) (s : AppState) : AppState :=
  (fun s => applyA s .undo)^[k] s

/-- The C2 scenario start: a fresh 1×1 project with one layer (its single
layer has id 0). -/
def c2Start : AppState := demoInit 1 1 1

/-- `n` sequential paint-and-commit actions on the C2 project, stroke `k`
leaving the single pixel as an opaque shade `k`. -/
def c2Commit : Nat → AppState
  | 0 => c2Start
  | n + 1 => commitToLayer (c2Commit n) 0 ⟨1, 1, [⟨n, 0, 0, 255⟩]⟩

/-- The C2 scenario: 60 sequential paint-and-commit actions. -/
def c2State : AppState := c2Commit 60

/-- A 2×2 buffer with one black pixel in the top-left corner. -/
def c1Buf : Buffer := ⟨2, 2, [blackPx, Rgba.transparent, Rgba.transparent, Rgba.transparent]⟩

/-- A fresh 2×2 one-layer project with `c1Buf` committed as a stroke. -/
def c1AfterCommit : AppState := commitToLayer (demoInit 2 2 1) 0 c1Buf

/-- The committed 2×2 project after one rotate-right of the active layer. -/
def c1AfterRotate : AppState := applyA c1AfterCommit .rotateRight

/-- A 3×1 (non-square) buffer with three distinct opaque pixels. -/
def c4Buf : Buffer := ⟨3, 1, [redPx, greenPx, bluePx]⟩

/-- A fresh 3×1 one-layer project with `c4Buf` committed. -/
def c4Base : AppState := commitToLayer (demoInit 3 1 1) 0 c4Buf

/-- One rotate-left-then-rotate-right pair on the active layer. -/
def lrPair (s : AppState) : AppState := applyA (applyA s .rotateLeft) .rotateRight

/-- One rotate-right-then-rotate-left pair on the active layer. -/
def rlPair (s : AppState) : AppState := applyA (applyA s .rotateRight) .rotateLeft

/-- A 2×2 buffer with four distinct opaque pixels. -/
def c4SqBuf : Buffer := ⟨2, 2, [redPx, greenPx, bluePx, blackPx]⟩

/-- A fresh 2×2 one-layer project with `c4SqBuf` committed. -/
def c4SqBase : AppState := commitToLayer (demoInit 2 2 1) 0 c4SqBuf

/-- A fresh 1×1 three-layer project (layer ids 2, 1, 0 from top to bottom)
with the bottom layer (id 0) selected. -/
def c9State : AppState := applyA (demoInit 1 1 3) (.selectLayer 0)

/-- A 2×2 project with distinct committed content and a finalized 1×2
selection over the left column. -/
def c3State : AppState :=
  applyA (commitToLayer (demoInit 2 2 1) 0 c4SqBuf)
    (.setSelection (some ⟨0, 0, 1, 2⟩))

/-! ## General lemmas about the pixel-grid primitives -/

theorem getD_range_map {α : Type _} (f : Nat → α) (m k : Nat) (d : α) (hk : k < m) :
    ((List.range m).map f).getD k d = f k := by
  have hlen : k < ((List.range m).map f).length := by simpa using hk
  rw [List.getD_eq_getElem _ _ hlen, List.getElem_map, List.getElem_range]

theorem index_lt (w h x y : Nat) (hx : x < w) (hy : y < h) : y * w + x < w * h := by
  calc y * w + x < y * w + w := by omega
    _ = (y + 1) * w := by ring
    _ ≤ h * w := Nat.mul_le_mul_right w hy
    _ = w * h := Nat.mul_comm h w

theorem index_mod (w x y : Nat) (hx : x < w) : (y * w + x) % w = x := by
  rw [Nat.add_comm, Nat.add_mul_mod_self_right, Nat.mod_eq_of_lt hx]

theorem index_div (w x y : Nat) (hx : x < w) : (y * w + x) / w = y := by
  rw [Nat.add_comm, Nat.add_mul_div_right _ _ (Nat.pos_of_ne_zero (by omega)),
    Nat.div_eq_of_lt hx]
  omega

theorem getD_drop {α : Type _} (l : List α) (d : α) (i j : Nat) (h : i + j < l.length) :
    (l.drop i).getD j d = l.getD (i + j) d := by
  have hj : j < (l.drop i).length := by
    rw [List.length_drop]; omega
  rw [List.getD_eq_getElem _ _ hj, List.getElem_drop l, List.getD_eq_getElem _ _ h]

theorem getD_take {α : Type _} (l : List α) (d : α) (n i : Nat) (hi : i < n)
    (h : i < l.length) :
    (l.take n).getD i d = l.getD i d := by
  have hit : i < (l.take n).length := by
    rw [List.length_take]; omega
  rw [List.getD_eq_getElem _ _ hit, List.getElem_take l, List.getD_eq_getElem _ _ h]

theorem getI_eq_getAt (b : Buffer) (x y : Nat) (hx : x < b.width) (hy : y < b.height) :
    b.getI x y = b.getAt (y * b.width + x) := by
  unfold Buffer.getI
  rw [if_pos]
  · simp
  · refine ⟨by positivity, by exact_mod_cast hx, by positivity, by exact_mod_cast hy⟩

theorem fillRect_getI (b : Buffer) (tlx tly : Int) (rw rh : Nat) (c : Rgba)
    (x y : Nat) (hx : x < b.width) (hy : y < b.height) :
    (b.fillRect tlx tly rw rh c).getI x y =
      (if tlx ≤ (x : Int) ∧ (x : Int) < tlx + rw ∧ tly ≤ (y : Int) ∧ (y : Int) < tly + rh
       then c else b.getI x y) := by
  have hx' : x < (b.fillRect tlx tly rw rh c).width := hx
  have hy' : y < (b.fillRect tlx tly rw rh c).height := hy
  rw [getI_eq_getAt _ x y hx' hy']
  show ((List.range (b.width * b.height)).map (fun k =>
      if tlx ≤ (k % b.width : Nat) ∧ (k % b.width : Nat) < tlx + rw ∧
         tly ≤ (k / b.width : Nat) ∧ (k / b.width : Nat) < tly + rh then c
      else b.getAt k)).getD (y * b.width + x) Rgba.transparent = _
  rw [getD_range_map _ _ _ _ (index_lt b.width b.height x y hx hy),
    index_mod b.width x y hx, index_div b.width x y hx,
    getI_eq_getAt b x y hx hy]

theorem rotate_width (b : Buffer) (sn : Int) :
    (rotateCanvasContent b sn).width = b.width := rfl

theorem rotate_height (b : Buffer) (sn : Int) :
    (rotateCanvasContent b sn).height = b.height := rfl

theorem rotate_getI (b : Buffer) (sn : Int) (x y : Nat)
    (hx : x < b.width) (hy : y < b.height) :
    (rotateCanvasContent b sn).getI x y =
      b.getI (((b.width : Int) + sn * (2 * y + 1 - b.height)) / 2)
             (((b.height : Int) - sn * (2 * x + 1 - b.width)) / 2) := by
  have hx' : x < (rotateCanvasContent b sn).width := hx
  have hy' : y < (rotateCanvasContent b sn).height := hy
  rw [getI_eq_getAt _ x y hx' hy']
  show ((List.range (b.width * b.height)).map (fun k =>
      b.getI (((b.width : Int) + sn * (2 * (k / b.width : Nat) + 1 - b.height)) / 2)
             (((b.height : Int) - sn * (2 * (k % b.width : Nat) + 1 - b.width)) / 2))).getD
      (y * b.width + x) Rgba.transparent = _
  rw [getD_range_map _ _ _ _ (index_lt b.width b.height x y hx hy),
    index_mod b.width x y hx, index_div b.width x y hx]

theorem getI_congr (b : Buffer) (x1 y1 x2 y2 : Int) (hx : x1 = x2) (hy : y1 = y2) :
    b.getI x1 y1 = b.getI x2 y2 := by rw [hx, hy]

theorem rotate_rotate_getI (b : Buffer) (hsq : b.width = b.height) (sn : Int)
    (hsn : sn = 1 ∨ sn = -1) (x y : Nat) (hx : x < b.width) (hy : y < b.height) :
    (rotateCanvasContent (rotateCanvasContent b sn) (-sn)).getI x y = b.getI x y := by
  rw [rotate_getI (rotateCanvasContent b sn) (-sn) x y hx hy,
    rotate_width, rotate_height, ← hsq]
  rcases hsn with rfl | rfl
  · refine Eq.trans (getI_congr (rotateCanvasContent b 1) _ _
      ((b.width - 1 - y : Nat) : Int) (x : Int) (by omega) (by omega)) ?_
    rw [rotate_getI b 1 (b.width - 1 - y) x (by omega) (by omega)]
    exact getI_congr b _ _ _ _ (by omega) (by omega)
  · refine Eq.trans (getI_congr (rotateCanvasContent b (-1)) _ _
      ((y : Nat) : Int) ((b.width - 1 - x : Nat) : Int) (by omega) (by omega)) ?_
    rw [rotate_getI b (-1) y (b.width - 1 - x) (by omega) (by omega)]
    exact getI_congr b _ _ _ _ (by omega) (by omega)

theorem rotate_roundtrip (b : Buffer) (hwf : b.Wf) (hsq : b.width = b.height)
    (sn : Int) (hsn : sn = 1 ∨ sn = -1) :
    rotateCanvasContent (rotateCanvasContent b sn) (-sn) = b := by
  have hdata : (rotateCanvasContent (rotateCanvasContent b sn) (-sn)).data = b.data := by
    apply List.ext_getElem
    · simp only [rotateCanvasContent, List.length_map, List.length_range]
      exact hwf.symm
    · intro k hk1 hk2
      have hk : k < b.width * b.height := by
        simpa [rotateCanvasContent] using hk1
      have hw0 : 0 < b.width := by
        rcases Nat.eq_zero_or_pos b.width with h0 | h0
        · rw [h0] at hk; simp at hk
        · exact h0
      have hi : k % b.width < b.width := Nat.mod_lt _ hw0
      have hj : k / b.width < b.height := by
        rw [Nat.div_lt_iff_lt_mul hw0, Nat.mul_comm]
        exact hk
      have hgetI := rotate_rotate_getI b hsq sn hsn (k % b.width) (k / b.width) hi hj
      rw [getI_eq_getAt (rotateCanvasContent (rotateCanvasContent b sn) (-sn))
          (k % b.width) (k / b.width) hi hj,
        getI_eq_getAt b (k % b.width) (k / b.width) hi hj] at hgetI
      simp only [rotate_width, rotate_height] at hgetI
      have hkk : k / b.width * b.width + k % b.width = k := by
        rw [Nat.mul_comm]
        exact Nat.div_add_mod k b.width
      rw [hkk] at hgetI
      simp only [Buffer.getAt] at hgetI
      rw [List.getD_eq_getElem _ _ hk1, List.getD_eq_getElem _ _ hk2] at hgetI
      exact hgetI
  cases b with
  | mk w h data => exact congrArg (Buffer.mk w h) hdata

/-! ## Claim theorems: commit clears selection (C10) and the brush stamp (C8) -/

/-- Claim C10: the `UPDATE_LAYER_CANVAS` action — the commit that finalizes
any stroke or fill — always returns a state whose `selection` and
`floatingSelection` are both `null`, whatever selection state existed
before the commit. -/
theorem updateLayerCanvas_clears_selection (s : AppState) (id : Nat)
    (canvas dataURL : Buffer) :
    (layerReducer s (.updateLayerCanvas id canvas dataURL)).1.selection = none ∧
    (layerReducer s (.updateLayerCanvas id canvas dataURL)).1.floatingSelection = none :=
  ⟨rfl, rfl⟩

/-- Claim C8: for every brush size `N ≥ 1` and centre `(cx, cy)`, the brush
stamp paints exactly the `N × N` square of pixels whose top-left corner is
`(cx - N / 2, cy - N / 2)` (every canvas pixel inside the square becomes
the brush colour, every other canvas pixel is untouched), and the erase
stamp clears exactly that same square to transparent. -/
theorem brush_stamp_square (b : Buffer) (color : Rgba) (cx cy : Int) (N : Nat)
    (hN : 1 ≤ N) (x y : Nat) (hx : x < b.width) (hy : y < b.height) :
    ((drawPixel b cx cy color N).getI x y =
      if cx - (N / 2 : Nat) ≤ (x : Int) ∧ (x : Int) < cx - (N / 2 : Nat) + N ∧
         cy - (N / 2 : Nat) ≤ (y : Int) ∧ (y : Int) < cy - (N / 2 : Nat) + N
      then color else b.getI x y) ∧
    ((clearPixel b cx cy N).getI x y =
      if cx - (N / 2 : Nat) ≤ (x : Int) ∧ (x : Int) < cx - (N / 2 : Nat) + N ∧
         cy - (N / 2 : Nat) ≤ (y : Int) ∧ (y : Int) < cy - (N / 2 : Nat) + N
      then Rgba.transparent else b.getI x y) :=
  ⟨fillRect_getI b _ _ N N color x y hx hy,
   fillRect_getI b _ _ N N Rgba.transparent x y hx hy⟩

/-- Witness for `brush_stamp_square`: a size-2 stamp centred at `(1, 1)` on
a 2×2 canvas paints pixel `(0, 0)` (the top-left corner is
`(1 - 1, 1 - 1)`). -/
theorem brush_stamp_square_witness :
    (drawPixel ⟨2, 2, List.replicate 4 Rgba.transparent⟩ 1 1 redPx 2).getI 0 0 = redPx := by
  have h := (brush_stamp_square ⟨2, 2, List.replicate 4 Rgba.transparent⟩ redPx 1 1 2
    (by decide) 0 0 (by decide) (by decide)).1
  norm_num at h
  exact h

/-! ## History capacity scenario (C2) -/

theorem pushToHistory_at_head (s : AppState) (snap : List LayerData)
    (h1 : s.historyIndex = (s.history.length : Int) - 1)
    (h2 : 1 ≤ s.history.length) (h3 : s.history.length ≤ 50) :
    (pushToHistory s snap).history.length = min (s.history.length + 1) 50 ∧
    (pushToHistory s snap).historyIndex =
      ((pushToHistory s snap).history.length : Int) - 1 := by
  have hinner : ¬ (s.historyIndex < (s.history.length : Int) - 1) := by omega
  simp only [pushToHistory]
  rw [if_neg hinner]
  by_cases hc : (((s.history ++ [snap]).length : Nat) : Int) > (MAX_HISTORY_SIZE : Int)
  · rw [if_pos hc]
    refine ⟨?_, ?_⟩ <;>
      simp only [List.length_append, List.length_drop, List.length_cons,
        List.length_nil, MAX_HISTORY_SIZE] at hc ⊢ <;>
      push_cast at hc ⊢ <;> omega
  · rw [if_neg hc]
    refine ⟨?_, ?_⟩ <;>
      simp only [List.length_append, List.length_cons, List.length_nil,
        MAX_HISTORY_SIZE] at hc ⊢ <;>
      push_cast at hc ⊢ <;> omega

theorem commitToLayer_hist (s : AppState) (id : Nat) (buf : Buffer)
    (h1 : s.historyIndex = (s.history.length : Int) - 1)
    (h2 : 1 ≤ s.history.length) (h3 : s.history.length ≤ 50) :
    (commitToLayer s id buf).history.length = min (s.history.length + 1) 50 ∧
    (commitToLayer s id buf).historyIndex =
      ((commitToLayer s id buf).history.length : Int) - 1 :=
  pushToHistory_at_head (strokeMutate s id buf)
    (serializeLayersForHistory (strokeMutate s id buf).layers) h1 h2 h3

theorem c2Commit_inv (n : Nat) :
    (c2Commit n).history.length = min (n + 1) 50 ∧
    (c2Commit n).historyIndex = ((c2Commit n).history.length : Int) - 1 := by
  induction n with
  | zero => exact ⟨rfl, rfl⟩
  | succ n ih =>
    have h := commitToLayer_hist (c2Commit n) 0 ⟨1, 1, [⟨n, 0, 0, 255⟩]⟩
      ih.2 (by omega) (by omega)
    refine ⟨?_, h.2⟩
    rw [show c2Commit (n + 1) = commitToLayer (c2Commit n) 0 ⟨1, 1, [⟨n, 0, 0, 255⟩]⟩ from rfl,
      h.1, ih.1]
    omega

theorem c2State_history_length : c2State.history.length = 50 := by
  have h := (c2Commit_inv 60).1
  rw [show c2State = c2Commit 60 from rfl, h]
  norm_num

theorem c2State_historyIndex : c2State.historyIndex = 49 := by
  have h := (c2Commit_inv 60).2
  rw [show c2State = c2Commit 60 from rfl] at *
  rw [h, (c2Commit_inv 60).1]
  norm_num

theorem undo_step_index (s : AppState) (h : 0 < s.historyIndex) :
    (applyA s .undo).historyIndex = s.historyIndex - 1 := by
  simp only [applyA, layerReducer]
  rw [if_neg (by omega)]

theorem undo_noop_of_bottom (s : AppState) (h : s.historyIndex ≤ 0) :
    applyA s .undo = s := by
  simp only [applyA, layerReducer]
  rw [if_pos h]

theorem undoIter_index (k : Nat) : ∀ (s : AppState), (k : Int) ≤ s.historyIndex →
    (undoIter k s).historyIndex = s.historyIndex - k := by
  induction k with
  | zero => intro s h; simp [undoIter]
  | succ k ih =>
    intro s h
    have h1 : 0 < s.historyIndex := by
      have : ((k : Int) + 1) ≤ s.historyIndex := by push_cast at h ⊢; omega
      omega
    have hstep : undoIter (k + 1) s = undoIter k (applyA s .undo) := by
      simp [undoIter, Function.iterate_succ_apply]
    rw [hstep, ih (applyA s .undo) (by rw [undo_step_index s h1]; push_cast at h ⊢; omega),
      undo_step_index s h1]
    push_cast
    omega

/-- Counterexample to claim C2 as stated: after a fresh init and 60
paint-and-commit actions, the 11th undo is not a no-op — ten undos leave
the cursor at 39 and the 11th moves it to 38 (the history holds 50
snapshots, so 49 undos are possible, not 10). -/
theorem history_undo_eleventh_not_noop :
    undoIter 11 c2State ≠ undoIter 10 c2State := by
  intro heq
  have h10 := undoIter_index 10 c2State (by rw [c2State_historyIndex]; norm_num)
  have h11 := undoIter_index 11 c2State (by rw [c2State_historyIndex]; norm_num)
  rw [heq] at h11
  rw [h10, c2State_historyIndex] at h11
  norm_num at h11

/-- Claim C2 (amended): with history capacity fixed at 50, a fresh project
followed by 60 sequential paint-and-commit actions leaves exactly 50
history entries with the cursor at the last index (49); from that state
each of 49 consecutive undos succeeds (the cursor reaches `49 - k` after
`k` of them), and the 50th undo is a no-op. -/
theorem history_capacity_scenario :
    c2State.history.length = 50 ∧ c2State.historyIndex = 49 ∧
    (∀ k, k ≤ 49 → (undoIter k c2State).historyIndex = 49 - k) ∧
    undoIter 50 c2State = undoIter 49 c2State := by
  refine ⟨c2State_history_length, c2State_historyIndex, fun k hk => ?_, ?_⟩
  · rw [undoIter_index k c2State (by rw [c2State_historyIndex]; omega),
      c2State_historyIndex]
  · have h49 := undoIter_index 49 c2State (by rw [c2State_historyIndex]; norm_num)
    rw [c2State_historyIndex] at h49
    norm_num at h49
    have hstep : undoIter 50 c2State = applyA (undoIter 49 c2State) .undo := by
      simp [undoIter, Function.iterate_succ_apply']
    rw [hstep, undo_noop_of_bottom _ (by rw [h49])]

/-- Witness for `history_capacity_scenario`: after 10 undos the cursor sits
at 39. -/
theorem history_capacity_scenario_witness :
    (undoIter 10 c2State).historyIndex = 39 := by
  have h := history_capacity_scenario.2.2.1 10 (by norm_num)
  norm_num at h
  exact h

/-! ## Pointer transform (C7) -/

/-- Claim C7: for every pointer event, `getLogicalCoords` computes the
logical coordinate by subtracting the canvas's on-screen origin, dividing
by the zoom factor, applying the inverse of the active layer's rotation
about the canvas's logical centre (the branch skipped at rotation 0 is the
identity rotation), and flooring to integers — i.e. it agrees everywhere
with the transform written out in the spec's words
(`specLogicalCoords`) — and it returns `none` ("outside canvas", never a
clamped coordinate) exactly when the floored coordinate falls outside
`[0, width) × [0, height)`: whenever it does return a coordinate, that
coordinate is inside the canvas. -/
theorem getLogicalCoords_correct
    (clientX clientY rectLeft rectTop zoomLevel : ℚ) (rotation : Int)
    (canvasWidth canvasHeight : Nat) :
    getLogicalCoords clientX clientY rectLeft rectTop zoomLevel rotation
        canvasWidth canvasHeight =
      specLogicalCoords clientX clientY rectLeft rectTop zoomLevel rotation
        canvasWidth canvasHeight ∧
    ∀ p, getLogicalCoords clientX clientY rectLeft rectTop zoomLevel rotation
        canvasWidth canvasHeight = some p →
      0 ≤ p.1 ∧ p.1 < canvasWidth ∧ 0 ≤ p.2 ∧ p.2 < canvasHeight := by
  constructor
  · simp only [getLogicalCoords, specLogicalCoords]
    by_cases hr : rotation ≠ 0
    · simp only [if_pos hr]
    · simp only [if_neg hr]
      push_neg at hr
      subst hr
      norm_num [cosDeg, sinDeg]
  · intro p hp
    simp only [getLogicalCoords] at hp
    split at hp <;> split at hp <;> rename_i hcond
    · simp only [Option.some.injEq] at hp
      subst hp
      exact hcond
    · simp at hp
    · simp only [Option.some.injEq] at hp
      subst hp
      exact hcond
    · simp at hp

/-! ## Flood fill lemmas (C5, C6) -/

theorem areColorsEqual_iff (c1 c2 : Rgba) : areColorsEqual c1 c2 = true ↔ c1 = c2 := by
  cases c1
  cases c2
  simp [areColorsEqual, Rgba.mk.injEq, Bool.and_eq_true, beq_iff_eq, and_assoc]

theorem getD_set_ne {α : Type _} (l : List α) (i k : Nat) (a d : α) (hne : i ≠ k) :
    (l.set i a).getD k d = l.getD k d := by
  rw [List.getD_eq_getElem?_getD, List.getD_eq_getElem?_getD, List.getElem?_set_ne hne]

theorem setPixel_width (d : Buffer) (x y : Int) (c : Rgba) :
    (setPixelInImageData d x y c).width = d.width := by
  unfold setPixelInImageData
  split <;> rfl

theorem setPixel_height (d : Buffer) (x y : Int) (c : Rgba) :
    (setPixelInImageData d x y c).height = d.height := by
  unfold setPixelInImageData
  split <;> rfl

theorem setPixel_length (d : Buffer) (x y : Int) (c : Rgba) :
    (setPixelInImageData d x y c).data.length = d.data.length := by
  unfold setPixelInImageData
  split <;> simp [List.length_set]

/-- Pixels whose original colour differs from the target colour are never
written by the flood-fill loop, and the loop never changes the image
dimensions: the only writes are `fill` at positions currently holding the
target colour, and a position still holds the target on entry only if it
originally held it. -/
theorem floodLoop_done_preserves (w h : Nat) (t f : Rgba) (orig : Buffer) :
    ∀ (fuel : Nat) (q : List (Int × Int)) (d d' : Buffer),
      floodLoop w h t f fuel q d = .done d' →
      d.width = orig.width → d.height = orig.height →
      d.data.length = orig.data.length →
      (∀ k, orig.data.getD k Rgba.transparent ≠ t →
        d.data.getD k Rgba.transparent = orig.data.getD k Rgba.transparent) →
      d'.width = orig.width ∧ d'.height = orig.height ∧
      d'.data.length = orig.data.length ∧
      (∀ k, orig.data.getD k Rgba.transparent ≠ t →
        d'.data.getD k Rgba.transparent = orig.data.getD k Rgba.transparent) := by
  intro fuel
  induction fuel with
  | zero =>
    intro q d d' hrun hw hh hl hinv
    match q, hrun with
    | [], hrun =>
      cases hrun
      exact ⟨hw, hh, hl, hinv⟩
  | succ fuel ih =>
    intro q d d' hrun hw hh hl hinv
    match q with
    | [] =>
      cases hrun
      exact ⟨hw, hh, hl, hinv⟩
    | (x, y) :: rest =>
      simp only [floodLoop] at hrun
      split at hrun
      · cases hrun
      · split at hrun
        · rename_i c hg
          split at hrun
          · -- painting step
            rename_i hct
            have hceq : c = t := (areColorsEqual_iff c t).mp hct
            unfold getPixelFromImageData at hg
            split at hg
            · rename_i hbounds
              injection hg with hcval
              have hset : setPixelInImageData d x y f =
                  { d with data := d.data.set (y.toNat * d.width + x.toNat) f } := by
                unfold setPixelInImageData
                rw [if_pos hbounds]
              refine ih _ _ d' hrun ?_ ?_ ?_ ?_
              · rw [setPixel_width, hw]
              · rw [setPixel_height, hh]
              · rw [setPixel_length, hl]
              · intro k hk
                have hne : y.toNat * d.width + x.toNat ≠ k := by
                  intro hkn
                  apply hk
                  rw [← hinv k hk, ← hkn]
                  show d.getAt (y.toNat * d.width + x.toNat) = t
                  rw [hcval, hceq]
                rw [hset]
                show (d.data.set (y.toNat * d.width + x.toNat) f).getD k Rgba.transparent = _
                rw [getD_set_ne d.data _ k f Rgba.transparent hne]
                exact hinv k hk
            · cases hg
          · exact ih rest d d' hrun hw hh hl hinv
        · exact ih rest d d' hrun hw hh hl hinv

/-- The fuel `floodFuel` supplies provably suffices: the loop always
reaches `done` or `abort`, never `outOfFuel` — every iteration either
dequeues without painting (measure −1) or paints a target-coloured pixel
with the fill colour (≠ target), strictly decreasing
`5 · (pixels still equal to target) + queue length`. -/
theorem floodLoop_ne_outOfFuel (w h : Nat) (t f : Rgba) (hft : f ≠ t) :
    ∀ (fuel : Nat) (q : List (Int × Int)) (d : Buffer),
      d.data.length = d.width * d.height →
      5 * d.data.countP (fun px => areColorsEqual px t) + q.length ≤ fuel →
      floodLoop w h t f fuel q d ≠ .outOfFuel := by
  intro fuel
  induction fuel with
  | zero =>
    intro q d hwf hmu
    match q with
    | [] => simp [floodLoop]
    | (x, y) :: rest =>
      exfalso
      simp [List.length_cons] at hmu
  | succ fuel ih =>
    intro q d hwf hmu
    match q with
    | [] => simp [floodLoop]
    | (x, y) :: rest =>
      simp only [floodLoop]
      split
      · simp
      · split
        · rename_i c hg
          split
          · rename_i hct
            have hceq : c = t := (areColorsEqual_iff c t).mp hct
            unfold getPixelFromImageData at hg
            split at hg
            · rename_i hbounds
              injection hg with hcval
              have hnlt : y.toNat * d.width + x.toNat < d.data.length := by
                rw [hwf]
                exact index_lt d.width d.height x.toNat y.toNat (by omega) (by omega)
              have hset : setPixelInImageData d x y f =
                  { d with data := d.data.set (y.toNat * d.width + x.toNat) f } := by
                unfold setPixelInImageData
                rw [if_pos hbounds]
              have hpn : areColorsEqual d.data[y.toNat * d.width + x.toNat] t = true := by
                have hdn : d.data[y.toNat * d.width + x.toNat] = c := by
                  rw [← hcval]
                  show d.data[y.toNat * d.width + x.toNat] = d.getAt _
                  unfold Buffer.getAt
                  rw [List.getD_eq_getElem _ _ hnlt]
                rw [hdn, hceq]
                exact (areColorsEqual_iff t t).mpr rfl
              have hpf : areColorsEqual f t = false := by
                rw [← Bool.not_eq_true]
                intro hcontra
                exact hft ((areColorsEqual_iff f t).mp hcontra)
              have hpos : 0 < d.data.countP (fun px => areColorsEqual px t) :=
                List.countP_pos_iff.mpr ⟨_, List.getElem_mem hnlt, hpn⟩
              have hcount : (d.data.set (y.toNat * d.width + x.toNat) f).countP
                    (fun px => areColorsEqual px t) + 1 =
                  d.data.countP (fun px => areColorsEqual px t) := by
                have hc := List.countP_set (fun px => areColorsEqual px t) d.data
                  (y.toNat * d.width + x.toNat) f hnlt
                rw [hpn, hpf] at hc
                simp at hc
                omega
              apply ih
              · rw [hset]
                simpa [List.length_set] using hwf
              · rw [hset]
                have hnbrs : ([((x : Int) + 1, y), (x - 1, y), (x, y + 1), (x, y - 1)].filter
                    fun p => decide (0 ≤ p.1 ∧ p.1 < (w : Int) ∧ 0 ≤ p.2 ∧ p.2 < (h : Int))).length ≤ 4 :=
                  List.length_filter_le _ _
                simp only [List.length_append, List.length_cons] at hmu ⊢
                omega
            · cases hg
          · apply ih _ _ hwf
            simp only [List.length_cons] at hmu ⊢
            omega
        · apply ih _ _ hwf
          simp only [List.length_cons] at hmu ⊢
          omega

/-- Reduction of `floodRun` once the seed pixel is known. -/
theorem floodRun_eq_of_seed (b : Buffer) (sx sy : Int) (fill t : Rgba)
    (hseed : getPixelFromImageData b sx sy = some t) :
    floodRun b sx sy fill =
      if areColorsEqual t fill then .done b
      else floodLoop b.width b.height t fill (floodFuel b t) [(sx, sy)] b := by
  unfold floodRun
  rw [hseed]

/-- Claim C5: for every buffer and every seed inside it, if the seed
pixel's exact RGBA value (all four channels) equals the fill colour, flood
fill leaves the buffer completely unchanged and raises no alert; and
whatever the fill colour, when the target colour has alpha 255 a pixel
whose alpha is 254 is never filled, even if its RGB matches — it keeps its
original value. -/
theorem flood_fill_exact_rgba (b : Buffer) (sx sy : Int) (fill target : Rgba)
    (hseed : getPixelFromImageData b sx sy = some target) :
    (target = fill → floodFill b sx sy fill = (b, [])) ∧
    (target.a = 255 → ∀ x y : Int, (b.getI x y).a = 254 →
      (floodFill b sx sy fill).1.getI x y = b.getI x y) := by
  constructor
  · intro hfill
    subst hfill
    unfold floodFill
    rw [floodRun_eq_of_seed b sx sy target target hseed,
      if_pos ((areColorsEqual_iff _ _).mpr rfl)]
  · intro ha255 x y ha254
    have hbne : b.getI x y ≠ target := by
      intro hbt
      rw [hbt, ha255] at ha254
      exact absurd ha254 (by omega)
    unfold floodFill
    rw [floodRun_eq_of_seed b sx sy fill target hseed]
    by_cases heq : areColorsEqual target fill
    · rw [if_pos heq]
    · rw [if_neg heq]
      cases hrun : floodLoop b.width b.height target fill (floodFuel b target)
          [(sx, sy)] b with
      | abort => rfl
      | outOfFuel => rfl
      | done d' =>
        obtain ⟨hw, hh, hl, hinv⟩ := floodLoop_done_preserves b.width b.height
          target fill b _ _ _ _ hrun rfl rfl rfl (fun k hk => rfl)
        show d'.getI x y = b.getI x y
        unfold Buffer.getI
        rw [hw, hh]
        by_cases hb : 0 ≤ x ∧ x < (b.width : Int) ∧ 0 ≤ y ∧ y < (b.height : Int)
        · rw [if_pos hb, if_pos hb]
          have hgetI : b.getI x y = b.data.getD (y.toNat * b.width + x.toNat)
              Rgba.transparent := by
            unfold Buffer.getI
            rw [if_pos hb]
            rfl
          show d'.data.getD (y.toNat * b.width + x.toNat) Rgba.transparent = _
          rw [hinv _ (by rw [← hgetI]; exact hbne)]
          rfl
        · rw [if_neg hb, if_neg hb]

/-- Witness for `flood_fill_exact_rgba`: on a 2×1 buffer whose seed pixel
is grey with alpha 255 and whose second pixel is the same grey with alpha
254, filling red at the seed leaves the alpha-254 pixel untouched. -/
theorem flood_fill_exact_rgba_witness :
    ((floodFill ⟨2, 1, [⟨9, 9, 9, 255⟩, ⟨9, 9, 9, 254⟩]⟩ 0 0 redPx).1).getI 1 0 =
      (⟨2, 1, [⟨9, 9, 9, 255⟩, ⟨9, 9, 9, 254⟩]⟩ : Buffer).getI 1 0 :=
  (flood_fill_exact_rgba ⟨2, 1, [⟨9, 9, 9, 255⟩, ⟨9, 9, 9, 254⟩]⟩ 0 0 redPx
    ⟨9, 9, 9, 255⟩ (by decide)).2 (by decide) 1 0 (by decide)

/-- Claim C6: whenever the flood-fill work queue exceeds its safety cap of
`2 × (buffer area)` — the loop outcome `abort` — the fill aborts with the
layer's buffer exactly in its pre-fill state (all mutations went to the
`ImageData` copy, which is discarded, never `putImageData`-ed back) and the
oversized-fill condition is reported to the user as the
"Fill area too large." alert; moreover on a well-formed buffer the loop
always terminates in `done` or `abort` (never runs out of fuel). -/
theorem flood_fill_abort_safe (b : Buffer) (sx sy : Int) (fill : Rgba)
    (hwf : b.Wf) :
    (floodRun b sx sy fill = .abort →
      floodFill b sx sy fill = (b, ["Fill area too large."])) ∧
    floodRun b sx sy fill ≠ .outOfFuel := by
  constructor
  · intro ha
    unfold floodFill
    rw [ha]
  · cases hseed : getPixelFromImageData b sx sy with
    | none =>
      unfold floodRun
      rw [hseed]
      simp
    | some t =>
      rw [floodRun_eq_of_seed b sx sy fill t hseed]
      by_cases heq : areColorsEqual t fill
      · rw [if_pos heq]
        simp
      · rw [if_neg heq]
        apply floodLoop_ne_outOfFuel b.width b.height t fill ?hft
          (floodFuel b t) [(sx, sy)] b hwf ?hmu
        case hft =>
          intro hfill
          exact heq ((areColorsEqual_iff t fill).mpr hfill.symm)
        case hmu =>
          unfold floodFuel
          have hle : b.data.countP (fun px => areColorsEqual px t) ≤ b.data.length :=
            List.countP_le_length _
          simp only [List.length_cons, List.length_nil]
          omega

/-- Witness for `flood_fill_abort_safe`: the fill on a well-formed 1×1
buffer never runs out of fuel. -/
theorem flood_fill_abort_safe_witness :
    floodRun ⟨1, 1, [Rgba.transparent]⟩ 0 0 redPx ≠ .outOfFuel :=
  (flood_fill_abort_safe ⟨1, 1, [Rgba.transparent]⟩ 0 0 redPx (by decide)).2

/-! ## Selection lift/stamp (C3) -/

theorem getImageData_width (b : Buffer) (sx sy : Int) (rw rh : Nat) :
    (b.getImageData sx sy rw rh).width = rw := rfl

theorem getImageData_height (b : Buffer) (sx sy : Int) (rw rh : Nat) :
    (b.getImageData sx sy rw rh).height = rh := rfl

theorem getImageData_getI (b : Buffer) (rx ry rw rh : Nat) (i j : Nat)
    (hi : i < rw) (hj : j < rh) :
    (b.getImageData rx ry rw rh).getI i j = b.getI (rx + i) (ry + j) := by
  rw [getI_eq_getAt (b.getImageData rx ry rw rh) i j hi hj]
  show ((List.range (rw * rh)).map (fun k =>
    b.getI ((rx : Int) + (k % rw : Nat)) ((ry : Int) + (k / rw : Nat)))).getD
      (j * rw + i) Rgba.transparent = _
  rw [getD_range_map _ _ _ _ (index_lt rw rh i j hi hj),
    index_mod rw i j hi, index_div rw i j hi]

/-- Clearing a rectangle with `clearRect` and then `putImageData`-ing back
the `getImageData` copy taken before the clear restores the buffer
pixel-for-pixel. -/
theorem lift_stamp_buffer (b : Buffer) (hwf : b.Wf) (rx ry rw rh : Nat)
    (hx : rx + rw ≤ b.width) (hy : ry + rh ≤ b.height) :
    (b.fillRect rx ry rw rh Rgba.transparent).putImageData
      (b.getImageData rx ry rw rh) rx ry = b := by
  obtain ⟨w, h, data⟩ := b
  simp only [Buffer.Wf] at hwf
  simp only [Buffer.putImageData, Buffer.fillRect, Buffer.mk.injEq,
    getImageData_width, getImageData_height]
  refine ⟨trivial, trivial, ?_⟩
  apply List.ext_getElem
  · simpa using hwf.symm
  · intro k hk1 hk2
    have hklt : k < w * h := by simpa using hk1
    have hw0 : 0 < w := by
      rcases Nat.eq_zero_or_pos w with h0 | h0
      · subst h0; omega
      · exact h0
    have hxk : k % w < w := Nat.mod_lt _ hw0
    have hyk : k / w < h := by
      rw [Nat.div_lt_iff_lt_mul hw0, Nat.mul_comm h w]
      exact hklt
    rw [List.getElem_map, List.getElem_range]
    by_cases hin : (rx : Int) ≤ (k % w : Nat) ∧ ((k % w : Nat) : Int) < rx + rw ∧
        (ry : Int) ≤ (k / w : Nat) ∧ ((k / w : Nat) : Int) < ry + rh
    · rw [if_pos hin]
      obtain ⟨hin1, hin2, hin3, hin4⟩ := hin
      have hxsub : ((k % w : Nat) : Int) - rx = ((k % w - rx : Nat) : Int) := by omega
      have hysub : ((k / w : Nat) : Int) - ry = ((k / w - ry : Nat) : Int) := by omega
      rw [hxsub, hysub]
      rw [getImageData_getI ⟨w, h, data⟩ rx ry rw rh (k % w - rx) (k / w - ry)
        (by omega) (by omega)]
      have hx2 : ((rx : Int) + ((k % w - rx : Nat) : Int)) = ((k % w : Nat) : Int) := by
        omega
      have hy2 : ((ry : Int) + ((k / w - ry : Nat) : Int)) = ((k / w : Nat) : Int) := by
        omega
      rw [hx2, hy2, getI_eq_getAt ⟨w, h, data⟩ (k % w) (k / w) hxk hyk]
      show data.getD (k / w * w + k % w) Rgba.transparent = _
      have hidx : k / w * w + k % w = k := by
        rw [Nat.mul_comm]
        exact Nat.div_add_mod k w
      rw [hidx, List.getD_eq_getElem _ _ (by omega)]
    · rw [if_neg hin]
      show ((List.range (w * h)).map _).getD k Rgba.transparent = _
      rw [getD_range_map _ _ _ _ hklt, if_neg hin]
      show data.getD k Rgba.transparent = _
      rw [List.getD_eq_getElem _ _ (by omega)]

theorem find?_updateLayerById (ls : List Layer) (lid aid : Nat) (upd : Layer → Layer)
    (hupd : ∀ l, (upd l).id = l.id) :
    ((updateLayerById ls lid upd).find? fun l => l.id == aid) =
      ((ls.find? fun l => l.id == aid).map fun l => if l.id == lid then upd l else l) := by
  unfold updateLayerById
  rw [List.find?_map]
  rw [show ((fun l : Layer => l.id == aid) ∘ fun l => if l.id == lid then upd l else l)
      = (fun l : Layer => l.id == aid) from funext fun l => by
    by_cases hc : l.id = lid
    · simp [hc, hupd]
    · simp [hc]]

theorem withCanvas_offscreenCanvas (c d : Buffer) (l : Layer) :
    (withCanvas c d l).offscreenCanvas = some c := rfl

theorem withCanvas_id (c d : Buffer) (l : Layer) :
    (withCanvas c d l).id = l.id := rfl

/-- Claim C3: from any state with an active layer whose buffer is hydrated
and a finalized selection rectangle inside the buffer, `LIFT_SELECTION`
with `clearOriginal = true` followed immediately (without moving the
floating selection) by `STAMP_FLOATING_SELECTION` leaves the active
layer's pixel buffer pixel-for-pixel identical to the buffer before the
lift. -/
theorem lift_then_stamp_restores (s : AppState) (aid : Nat) (l : Layer) (b : Buffer)
    (sel : SelectionRect)
    (hsel : s.selection = some sel)
    (hact : s.activeLayerId = some aid)
    (hfind : s.layers.find? (fun l2 => l2.id == aid) = some l)
    (hcanvas : l.offscreenCanvas = some b)
    (hwf : b.Wf)
    (hx : sel.x + sel.width ≤ b.width)
    (hy : sel.y + sel.height ≤ b.height) :
    activeContent (applyA (applyA s (.liftSelection true)) .stampFloatingSelection) =
      some b := by
  have hlid : l.id = aid := by
    have := List.find?_some hfind
    simpa using this
  have h1 : applyA s (.liftSelection true) = { s with
      history := (pushToHistory s (serializeLayersForHistory s.layers)).history
      historyIndex := (pushToHistory s (serializeLayersForHistory s.layers)).historyIndex
      floatingSelection := some
        { imageData := b.getImageData sel.x sel.y sel.width sel.height,
          x := sel.x, y := sel.y, initialPosition := (sel.x, sel.y) }
      selection := none
      layers := updateLayerById s.layers l.id
        (withCanvas (b.fillRect sel.x sel.y sel.width sel.height Rgba.transparent)
          (b.fillRect sel.x sel.y sel.width sel.height Rgba.transparent)) } := by
    simp only [applyA, layerReducer, hsel, hact, hfind, hcanvas, if_true]
  rw [h1]
  have hfind2 : ((updateLayerById s.layers l.id
      (withCanvas (b.fillRect sel.x sel.y sel.width sel.height Rgba.transparent)
        (b.fillRect sel.x sel.y sel.width sel.height Rgba.transparent))).find?
      fun l2 => l2.id == aid) = some
      (withCanvas (b.fillRect sel.x sel.y sel.width sel.height Rgba.transparent)
        (b.fillRect sel.x sel.y sel.width sel.height Rgba.transparent) l) := by
    rw [find?_updateLayerById s.layers l.id aid
      (withCanvas (b.fillRect sel.x sel.y sel.width sel.height Rgba.transparent)
        (b.fillRect sel.x sel.y sel.width sel.height Rgba.transparent))
      (fun l2 => rfl), hfind]
    simp [hlid]
  simp only [applyA, layerReducer, hact, hfind2, withCanvas_offscreenCanvas]
  simp only [activeContent, activeLayer, hact, layerContent, withCanvas_id]
  rw [find?_updateLayerById
    (updateLayerById s.layers l.id
      (withCanvas (b.fillRect sel.x sel.y sel.width sel.height Rgba.transparent)
        (b.fillRect sel.x sel.y sel.width sel.height Rgba.transparent)))
    l.id aid
    (withCanvas ((b.fillRect sel.x sel.y sel.width sel.height Rgba.transparent).putImageData
        (b.getImageData sel.x sel.y sel.width sel.height) sel.x sel.y)
      ((b.fillRect sel.x sel.y sel.width sel.height Rgba.transparent).putImageData
        (b.getImageData sel.x sel.y sel.width sel.height) sel.x sel.y))
    (fun l2 => rfl), hfind2]
  simp [withCanvas_id, withCanvas_offscreenCanvas,
    lift_stamp_buffer b hwf sel.x sel.y sel.width sel.height hx hy]

/-- Witness for `lift_then_stamp_restores`: on the 2×2 project with
`c4SqBuf` committed and the left column selected, lift-with-clear followed
by stamp restores the buffer. -/
theorem lift_then_stamp_restores_witness :
    activeContent (applyA (applyA c3State (.liftSelection true))
      .stampFloatingSelection) = some c4SqBuf :=
  lift_then_stamp_restores c3State 0
    ⟨⟨0, "Layer 1", true, false, 1, some c4SqBuf, 0⟩, some c4SqBuf⟩ c4SqBuf
    ⟨0, 0, 1, 2⟩ (by decide) (by decide) (by decide) (by decide) (by decide)
    (by decide) (by decide)

/-! ## Undo/redo round trip counterexample (C1) -/

/-- Counterexample to claim C1 as stated: rotating the active layer is a
mutating action performed from a reachable state (fresh 2×2 project, one
committed stroke), and undo followed by redo does not restore the layer
buffers to the post-rotation state — the snapshot pushed by `ROTATE_RIGHT`
is the pre-rotation serialization, so redo lands on the un-rotated
buffer. -/
theorem undo_redo_roundtrip_fails_for_rotate :
    contentsOf (applyA (applyA c1AfterRotate .undo) .redo) ≠ contentsOf c1AfterRotate := by
  decide

/-- History bookkeeping of `pushToHistory` from a synced state: the result
is some prefix `pre` followed by the new snapshot, the cursor points at the
snapshot, and the entry just below the snapshot is the old entry at the old
cursor (the eviction case shifts everything down by one). -/
theorem pushToHistory_spec (s : AppState) (snap : List LayerData)
    (h0 : 0 ≤ s.historyIndex) (h1 : s.historyIndex < (s.history.length : Int))
    (h2 : s.history.length ≤ 50) :
    ∃ pre : List (List LayerData),
      (pushToHistory s snap).history = pre ++ [snap] ∧
      (pushToHistory s snap).historyIndex = (pre.length : Int) ∧
      0 < pre.length ∧
      pre.getD (pre.length - 1) [] = s.history.getD s.historyIndex.toNat [] := by
  simp only [pushToHistory]
  have huni : (if s.historyIndex < (s.history.length : Int) - 1 then
      s.history.take (s.historyIndex + 1).toNat else s.history)
      = s.history.take (s.historyIndex + 1).toNat := by
    split
    · rfl
    · next hn => rw [List.take_of_length_le (by omega)]
  rw [huni]
  by_cases hev : ((s.history.take (s.historyIndex + 1).toNat ++ [snap]).length : Int)
      > (MAX_HISTORY_SIZE : Int)
  · rw [if_pos hev]
    simp only [MAX_HISTORY_SIZE] at hev
    have hev2 : (s.history.take (s.historyIndex + 1).toNat ++ [snap]).length > 50 := by
      exact_mod_cast hev
    simp only [List.length_append, List.length_take, List.length_singleton] at hev2
    have h49 : s.historyIndex.toNat = 49 := by omega
    have h50 : s.history.length = 50 := by omega
    refine ⟨s.history.drop 1, ?_, ?_, ?_, ?_⟩
    · show (s.history.take (s.historyIndex + 1).toNat ++ [snap]).drop 1
        = s.history.drop 1 ++ [snap]
      rw [List.take_of_length_le (by omega), List.drop_append_of_le_length (by omega)]
    · show s.historyIndex + 1 - 1 = ((s.history.drop 1).length : Int)
      rw [List.length_drop, h50]
      omega
    · rw [List.length_drop, h50]
      omega
    · rw [getD_drop s.history ([]) 1 ((s.history.drop 1).length - 1)
        (by rw [List.length_drop, h50]; omega)]
      have hidx : 1 + ((s.history.drop 1).length - 1) = s.historyIndex.toNat := by
        rw [List.length_drop, h50, h49]
      rw [hidx]
  · rw [if_neg hev]
    simp only [MAX_HISTORY_SIZE] at hev
    have hev2 : (s.history.take (s.historyIndex + 1).toNat ++ [snap]).length ≤ 50 := by
      omega
    refine ⟨s.history.take (s.historyIndex + 1).toNat, rfl, ?_, ?_, ?_⟩
    · show s.historyIndex + 1 = ((s.history.take (s.historyIndex + 1).toNat).length : Int)
      rw [List.length_take]
      omega
    · rw [List.length_take]
      omega
    · have hlt : (s.history.take (s.historyIndex + 1).toNat).length
          = s.historyIndex.toNat + 1 := by
        rw [List.length_take]; omega
      rw [hlt]
      have e1 : s.historyIndex.toNat + 1 - 1 = s.historyIndex.toNat := by omega
      rw [e1, getD_take s.history ([]) (s.historyIndex + 1).toNat s.historyIndex.toNat
        (by omega) (by omega)]

/-- Projections of the `UPDATE_LAYER_CANVAS` commit dispatch. -/
theorem commit_proj (s : AppState) (id : Nat) (buf : Buffer) :
    (commitToLayer s id buf).history =
      (pushToHistory (strokeMutate s id buf)
        (serializeLayersForHistory (strokeMutate s id buf).layers)).history ∧
    (commitToLayer s id buf).historyIndex =
      (pushToHistory (strokeMutate s id buf)
        (serializeLayersForHistory (strokeMutate s id buf).layers)).historyIndex ∧
    (commitToLayer s id buf).layers =
      updateLayerById (strokeMutate s id buf).layers id (withCanvas buf buf) := by
  refine ⟨?_, ?_, ?_⟩ <;> simp only [commitToLayer, applyA, layerReducer]

/-- Projections of a non-trivial `UNDO`. -/
theorem undo_proj (s : AppState) (hpos : 0 < s.historyIndex) :
    (applyA s .undo).layers
      = (s.history.getD (s.historyIndex - 1).toNat []).map restoreLayer ∧
    (applyA s .undo).historyIndex = s.historyIndex - 1 ∧
    (applyA s .undo).history = s.history := by
  have hnot : ¬ s.historyIndex ≤ 0 := by omega
  refine ⟨?_, ?_, ?_⟩ <;> simp only [applyA, layerReducer, if_neg hnot]

/-- Projections of a non-trivial `REDO`. -/
theorem redo_proj (s : AppState) (ha : 0 ≤ s.historyIndex)
    (hb : s.historyIndex < (s.history.length : Int) - 1) :
    (applyA s .redo).layers
      = (s.history.getD (s.historyIndex + 1).toNat []).map restoreLayer := by
  have hnot : ¬ (s.historyIndex ≥ (s.history.length : Int) - 1 ∨ s.historyIndex < 0) := by
    push_neg
    exact ⟨hb, ha⟩
  simp only [applyA, layerReducer, if_neg hnot]

/-- Restoring a serialized snapshot preserves the layer contents: the
snapshot stores each layer's current content as its data URL, and the
restored layer (canvas `null`) presents exactly that data URL. -/
theorem contentsOf_restore (ls : List Layer) :
    ((serializeLayersForHistory ls).map restoreLayer).map layerContent
      = ls.map layerContent := by
  simp only [serializeLayersForHistory, List.map_map]
  rfl

/-- The commit's second canvas install (`withCanvas` on the already
mutated layer list) does not change any layer's content. -/
theorem commit_content_eq (s : AppState) (id : Nat) (buf : Buffer) :
    (updateLayerById (strokeMutate s id buf).layers id (withCanvas buf buf)).map
        layerContent
      = (strokeMutate s id buf).layers.map layerContent := by
  simp only [strokeMutate, updateLayerById, List.map_map]
  congr 1
  funext l
  by_cases hc : l.id = id
  · simp [Function.comp, hc, layerContent, withCanvas]
  · simp [Function.comp, hc]

/-- Claim C1 (amended: the claim as stated fails — see
`undo_redo_roundtrip_fails_for_rotate` — because the reducer-performed
mutations such as rotate push only the pre-action snapshot, so redo after
undo re-installs the pre-action buffers.  It does hold for the draw/fill
commit path, where the canvas is mutated in place before dispatch and the
pushed snapshot therefore already holds the post-action pixels): from any
history-synced state (cursor in range, capacity respected, entry at the
cursor = serialization of the current layers — true of a fresh project and
preserved by commits), committing a stroke or fill and undoing restores
every layer's pixel content byte-for-byte to the pre-action state, and
redoing immediately after that restores the post-action contents. -/
theorem commit_undo_redo_roundtrip (s : AppState) (id : Nat) (buf : Buffer)
    (h0 : 0 ≤ s.historyIndex)
    (h1 : s.historyIndex < (s.history.length : Int))
    (h2 : s.history.length ≤ 50)
    (h3 : s.history.getD s.historyIndex.toNat [] = serializeLayersForHistory s.layers) :
    contentsOf (applyA (commitToLayer s id buf) .undo) = contentsOf s ∧
    contentsOf (applyA (applyA (commitToLayer s id buf) .undo) .redo)
      = contentsOf (commitToLayer s id buf) := by
  obtain ⟨pre, hph, hpi, hplen, hptop⟩ := pushToHistory_spec (strokeMutate s id buf)
    (serializeLayersForHistory (strokeMutate s id buf).layers) h0 h1 h2
  have hptop' : pre.getD (pre.length - 1) [] = serializeLayersForHistory s.layers := by
    rw [hptop]; exact h3
  obtain ⟨hch, hci, hcl⟩ := commit_proj s id buf
  have hch' : (commitToLayer s id buf).history
      = pre ++ [serializeLayersForHistory (strokeMutate s id buf).layers] := by
    rw [hch, hph]
  have hci' : (commitToLayer s id buf).historyIndex = (pre.length : Int) := by
    rw [hci, hpi]
  have hpos : 0 < (commitToLayer s id buf).historyIndex := by
    rw [hci']; exact_mod_cast hplen
  obtain ⟨hul, hui, huh⟩ := undo_proj (commitToLayer s id buf) hpos
  have hentry : (commitToLayer s id buf).history.getD
      ((commitToLayer s id buf).historyIndex - 1).toNat []
      = serializeLayersForHistory s.layers := by
    rw [hch', hci']
    have hto : ((pre.length : Int) - 1).toNat = pre.length - 1 := by omega
    rw [hto, List.getD_append pre _ ([]) (pre.length - 1) (by omega)]
    exact hptop'
  constructor
  · simp only [contentsOf]
    rw [hul, hentry, contentsOf_restore]
  · simp only [contentsOf]
    have hui' : (applyA (commitToLayer s id buf) .undo).historyIndex
        = (pre.length : Int) - 1 := by
      rw [hui, hci']
    have huh' : (applyA (commitToLayer s id buf) .undo).history
        = pre ++ [serializeLayersForHistory (strokeMutate s id buf).layers] := by
      rw [huh, hch']
    have hr := redo_proj (applyA (commitToLayer s id buf) .undo)
      (by rw [hui']; omega)
      (by rw [hui', huh']; rw [List.length_append]; simp)
    rw [hr]
    have hentry2 : (applyA (commitToLayer s id buf) .undo).history.getD
        ((applyA (commitToLayer s id buf) .undo).historyIndex + 1).toNat []
        = serializeLayersForHistory (strokeMutate s id buf).layers := by
      rw [huh', hui']
      have e2 : ((pre.length : Int) - 1 + 1).toNat = pre.length := by omega
      rw [e2, List.getD_append_right pre _ ([]) pre.length (le_refl _)]
      simp
    rw [hentry2, contentsOf_restore, hcl]
    exact (commit_content_eq s id buf).symm

/-- Witness for `commit_undo_redo_roundtrip`: the fresh 2×2 project (whose
single history entry is the serialization of its layers), committing the
2×2 test pattern, undoing and redoing. -/
theorem commit_undo_redo_roundtrip_witness :
    contentsOf (applyA (commitToLayer (demoInit 2 2 1) 0 c4SqBuf) .undo)
      = contentsOf (demoInit 2 2 1) ∧
    contentsOf (applyA (applyA (commitToLayer (demoInit 2 2 1) 0 c4SqBuf) .undo) .redo)
      = contentsOf (commitToLayer (demoInit 2 2 1) 0 c4SqBuf) :=
  commit_undo_redo_roundtrip (demoInit 2 2 1) 0 c4SqBuf
    (by decide) (by decide) (by decide) (by decide)

/-! ## Rotation counterexample (C4) -/

/-- Counterexample to claim C4 as stated: on a 3×1 (non-square) layer the
±90° rotation clips the content to the canvas, so four
rotate-left/rotate-right pairs do not return the pixel buffer to its
original content (the corner pixels are lost to clipping). -/
theorem rotate_pairs_fail_for_nonsquare :
    activeContent (lrPair^[4] c4Base) ≠ some c4Buf := by decide

theorem rotateLeftUpd_id (l : Layer) : (rotateLeftUpd l).id = l.id := by
  unfold rotateLeftUpd
  cases l.offscreenCanvas <;> rfl

theorem rotateRightUpd_id (l : Layer) : (rotateRightUpd l).id = l.id := by
  unfold rotateRightUpd
  cases l.offscreenCanvas <;> rfl

theorem rotate_upd_roundtrip_lr (l : Layer) (b : Buffer)
    (hcanvas : l.offscreenCanvas = some b) (hwf : b.Wf) (hsq : b.width = b.height) :
    rotateRightUpd (rotateLeftUpd l) = { l with
      rotation := ((l.rotation - 90 + 360) % 360 + 90) % 360
      offscreenCanvas := some b
      dataURL := some b } := by
  have hrr : rotateCanvasContent (rotateCanvasContent b (-1)) 1 = b := by
    have h := rotate_roundtrip b hwf hsq (-1) (Or.inr rfl)
    simpa using h
  simp only [rotateLeftUpd, hcanvas, rotateRightUpd]
  rw [hrr]

theorem rotate_upd_roundtrip_rl (l : Layer) (b : Buffer)
    (hcanvas : l.offscreenCanvas = some b) (hwf : b.Wf) (hsq : b.width = b.height) :
    rotateLeftUpd (rotateRightUpd l) = { l with
      rotation := ((l.rotation + 90) % 360 - 90 + 360) % 360
      offscreenCanvas := some b
      dataURL := some b } := by
  have hrr : rotateCanvasContent (rotateCanvasContent b 1) (-1) = b :=
    rotate_roundtrip b hwf hsq 1 (Or.inl rfl)
  simp only [rotateRightUpd, hcanvas, rotateLeftUpd]
  rw [hrr]

theorem rotateLeft_proj (s : AppState) (aid : Nat) (hact : s.activeLayerId = some aid) :
    (applyA s .rotateLeft).activeLayerId = some aid ∧
    (applyA s .rotateLeft).layers = updateLayerById s.layers aid rotateLeftUpd := by
  constructor
  · simp only [applyA, layerReducer, hact]
  · simp only [applyA, layerReducer, hact]

theorem rotateRight_proj (s : AppState) (aid : Nat) (hact : s.activeLayerId = some aid) :
    (applyA s .rotateRight).activeLayerId = some aid ∧
    (applyA s .rotateRight).layers = updateLayerById s.layers aid rotateRightUpd := by
  constructor
  · simp only [applyA, layerReducer, hact]
  · simp only [applyA, layerReducer, hact]

theorem lrPair_spec (s : AppState) (aid : Nat) (l : Layer) (b : Buffer)
    (hact : s.activeLayerId = some aid)
    (hfind : (s.layers.find? fun l2 => l2.id == aid) = some l)
    (hlid : l.id = aid)
    (hcanvas : l.offscreenCanvas = some b) (hwf : b.Wf) (hsq : b.width = b.height) :
    (lrPair s).activeLayerId = some aid ∧
    ((lrPair s).layers.find? fun l2 => l2.id == aid) = some { l with
      rotation := ((l.rotation - 90 + 360) % 360 + 90) % 360
      offscreenCanvas := some b
      dataURL := some b } := by
  obtain ⟨ha1, hl1⟩ := rotateLeft_proj s aid hact
  have hfind1 : ((applyA s .rotateLeft).layers.find? fun l2 => l2.id == aid)
      = some (rotateLeftUpd l) := by
    rw [hl1, find?_updateLayerById _ _ _ _ rotateLeftUpd_id, hfind]
    simp [hlid]
  obtain ⟨ha2, hl2⟩ := rotateRight_proj (applyA s .rotateLeft) aid ha1
  refine ⟨ha2, ?_⟩
  show ((applyA (applyA s .rotateLeft) .rotateRight).layers.find?
      fun l2 => l2.id == aid) = _
  rw [hl2, find?_updateLayerById _ _ _ _ rotateRightUpd_id, hfind1]
  simp only [Option.map_some']
  rw [if_pos (by simp [rotateLeftUpd_id, hlid]),
    rotate_upd_roundtrip_lr l b hcanvas hwf hsq]

theorem rlPair_spec (s : AppState) (aid : Nat) (l : Layer) (b : Buffer)
    (hact : s.activeLayerId = some aid)
    (hfind : (s.layers.find? fun l2 => l2.id == aid) = some l)
    (hlid : l.id = aid)
    (hcanvas : l.offscreenCanvas = some b) (hwf : b.Wf) (hsq : b.width = b.height) :
    (rlPair s).activeLayerId = some aid ∧
    ((rlPair s).layers.find? fun l2 => l2.id == aid) = some { l with
      rotation := ((l.rotation + 90) % 360 - 90 + 360) % 360
      offscreenCanvas := some b
      dataURL := some b } := by
  obtain ⟨ha1, hl1⟩ := rotateRight_proj s aid hact
  have hfind1 : ((applyA s .rotateRight).layers.find? fun l2 => l2.id == aid)
      = some (rotateRightUpd l) := by
    rw [hl1, find?_updateLayerById _ _ _ _ rotateRightUpd_id, hfind]
    simp [hlid]
  obtain ⟨ha2, hl2⟩ := rotateLeft_proj (applyA s .rotateRight) aid ha1
  refine ⟨ha2, ?_⟩
  show ((applyA (applyA s .rotateRight) .rotateLeft).layers.find?
      fun l2 => l2.id == aid) = _
  rw [hl2, find?_updateLayerById _ _ _ _ rotateLeftUpd_id, hfind1]
  simp only [Option.map_some']
  rw [if_pos (by simp [rotateRightUpd_id, hlid]),
    rotate_upd_roundtrip_rl l b hcanvas hwf hsq]

/-- Claim C4 (amended: the claim's "any width and height" fails — see
`rotate_pairs_fail_for_nonsquare` — but it holds for square buffers): for
every state whose active layer is hydrated with a square, well-formed
buffer, four rotate-left/rotate-right pairs (and likewise four
rotate-right/rotate-left pairs) return the layer's pixel buffer to its
original content and its rotation field to its original value mod 360. -/
theorem rotate_pairs_restore_square (s : AppState) (aid : Nat) (l : Layer) (b : Buffer)
    (hact : s.activeLayerId = some aid)
    (hfind : (s.layers.find? fun l2 => l2.id == aid) = some l)
    (hlid : l.id = aid)
    (hcanvas : l.offscreenCanvas = some b)
    (hwf : b.Wf) (hsq : b.width = b.height) :
    activeContent (lrPair (lrPair (lrPair (lrPair s)))) = some b ∧
    ((activeLayer (lrPair (lrPair (lrPair (lrPair s))))).map fun l4 => l4.rotation)
      = some (l.rotation % 360) ∧
    activeContent (rlPair (rlPair (rlPair (rlPair s)))) = some b ∧
    ((activeLayer (rlPair (rlPair (rlPair (rlPair s))))).map fun l4 => l4.rotation)
      = some (l.rotation % 360) := by
  obtain ⟨ha1, hf1⟩ := lrPair_spec s aid l b hact hfind hlid hcanvas hwf hsq
  obtain ⟨ha2, hf2⟩ := lrPair_spec _ aid _ b ha1 hf1 hlid rfl hwf hsq
  obtain ⟨ha3, hf3⟩ := lrPair_spec _ aid _ b ha2 hf2 hlid rfl hwf hsq
  obtain ⟨ha4, hf4⟩ := lrPair_spec _ aid _ b ha3 hf3 hlid rfl hwf hsq
  obtain ⟨hb1, hg1⟩ := rlPair_spec s aid l b hact hfind hlid hcanvas hwf hsq
  obtain ⟨hb2, hg2⟩ := rlPair_spec _ aid _ b hb1 hg1 hlid rfl hwf hsq
  obtain ⟨hb3, hg3⟩ := rlPair_spec _ aid _ b hb2 hg2 hlid rfl hwf hsq
  obtain ⟨hb4, hg4⟩ := rlPair_spec _ aid _ b hb3 hg3 hlid rfl hwf hsq
  refine ⟨?_, ?_, ?_, ?_⟩
  · simp [activeContent, activeLayer, ha4, hf4, layerContent]
  · simp [activeLayer, ha4, hf4]
  · simp [activeContent, activeLayer, hb4, hg4, layerContent]
  · simp [activeLayer, hb4, hg4]
    omega

/-- Witness for `rotate_pairs_restore_square`: the 2×2 project with
`c4SqBuf` committed; four rotate pairs of either orientation restore the
buffer and the rotation field. -/
theorem rotate_pairs_restore_square_witness :
    activeContent (lrPair (lrPair (lrPair (lrPair c4SqBase)))) = some c4SqBuf ∧
    ((activeLayer (lrPair (lrPair (lrPair (lrPair c4SqBase))))).map fun l4 => l4.rotation)
      = some ((0 : Int) % 360) ∧
    activeContent (rlPair (rlPair (rlPair (rlPair c4SqBase)))) = some c4SqBuf ∧
    ((activeLayer (rlPair (rlPair (rlPair (rlPair c4SqBase))))).map fun l4 => l4.rotation)
      = some ((0 : Int) % 360) :=
  rotate_pairs_restore_square c4SqBase 0
    ⟨⟨0, "Layer 1", true, false, 1, some c4SqBuf, 0⟩, some c4SqBuf⟩ c4SqBuf
    (by decide) (by decide) (by decide) (by decide) (by decide) (by decide)

/-! ## Delete-layer counterexample (C9) -/

/-- Counterexample to claim C9 as stated: with more than one layer,
deleting a layer that is not the active one does not re-select the
deleted layer's previous neighbour (fallback index 0) — the active
selection is simply left unchanged.  Here layers are (top to bottom)
ids 2, 1, 0, the active layer is 0, and deleting layer 2 leaves the
active id 0 while the claim predicts the neighbour `after[max(0,-1+0)]`,
id 1. -/
theorem delete_nonactive_keeps_selection :
    (applyA c9State (.deleteLayer (some 2))).activeLayerId = some 0 ∧
    ((c9State.layers.filter fun l => !(l.id == 2)).get?
        ((c9State.layers.findIdx fun l => l.id == 2) - 1)).map (·.id) = some 1 ∧
    some 0 ≠ some 1 := by decide

/-- Claim C9 (amended: the last-layer guards hold exactly as claimed, but
delete re-selects the previous neighbour only when the DELETED layer was
the active one — deleting a non-active layer leaves the selection alone,
see `delete_nonactive_keeps_selection`; also the cut guard is not a full
no-op: it still copies the layer to the clipboard): (1) deleting when at
most one layer remains returns the state unchanged — layers, selection and
history included — plus the "Cannot delete the last layer." alert; (2)
cutting the last remaining layer leaves layers, active selection and
history unchanged (only the clipboard is set) and raises the "Copied last
layer. Cannot cut the last layer." alert; (3) with more than one layer,
deleting an existing layer removes exactly it, and when it was the active
layer the active selection moves to the remaining layer at index
`deletedIndex - 1` (index 0 when the bottom layer was deleted). -/
theorem delete_cut_last_and_reselect (s : AppState) :
    (∀ oid, s.layers.length ≤ 1 →
      layerReducer s (.deleteLayer oid) = (s, ["Cannot delete the last layer."])) ∧
    (∀ aid l, s.layers.length = 1 → s.activeLayerId = some aid →
      (s.layers.find? fun l2 => l2.id == aid) = some l →
      (applyA s .cutLayer).layers = s.layers ∧
      (applyA s .cutLayer).activeLayerId = s.activeLayerId ∧
      (applyA s .cutLayer).history = s.history ∧
      (applyA s .cutLayer).historyIndex = s.historyIndex ∧
      (layerReducer s .cutLayer).2 = ["Copied last layer. Cannot cut the last layer."]) ∧
    (∀ did l prev, 1 < s.layers.length →
      (s.layers.find? fun l2 => l2.id == did) = some l →
      s.activeLayerId = some did →
      ((s.layers.filter fun l2 => !(l2.id == did)).get?
        ((s.layers.findIdx fun l2 => l2.id == did) - 1)) = some prev →
      (applyA s (.deleteLayer (some did))).layers
        = (s.layers.filter fun l2 => !(l2.id == did)) ∧
      (applyA s (.deleteLayer (some did))).activeLayerId = some prev.id) := by
  refine ⟨?_, ?_, ?_⟩
  · intro oid h
    simp only [layerReducer, if_pos h]
  · intro aid l h1 h2 h3
    refine ⟨?_, ?_, ?_, ?_, ?_⟩ <;>
      simp only [applyA, layerReducer, h2, h3, if_pos h1]
  · intro did l prev h1 h2 h3 h4
    have hcond : ¬ s.layers.length ≤ 1 := by omega
    constructor
    · simp only [applyA, layerReducer, if_neg hcond, h2, Option.isNone_some,
        Bool.false_eq_true, if_false]
    · simp only [applyA, layerReducer, if_neg hcond, h2, h3, h4, Option.isNone_some,
        Bool.false_eq_true, if_false, beq_self_eq_true, true_or, if_true,
        Option.map_some']

/-- Witness for `delete_cut_last_and_reselect`: the fresh single-layer 2×2
project for the two last-layer guards, and the three-layer `c9State`
(ids 2, 1, 0 top-down, layer 0 active) for deleting the active bottom
layer, which re-selects its neighbour, layer 1. -/
theorem delete_cut_last_and_reselect_witness :
    layerReducer (demoInit 2 2 1) (.deleteLayer (some 0))
      = (demoInit 2 2 1, ["Cannot delete the last layer."]) ∧
    (applyA (demoInit 2 2 1) .cutLayer).layers = (demoInit 2 2 1).layers ∧
    (layerReducer (demoInit 2 2 1) .cutLayer).2
      = ["Copied last layer. Cannot cut the last layer."] ∧
    (applyA c9State (.deleteLayer (some 0))).layers
      = (c9State.layers.filter fun l2 => !(l2.id == 0)) ∧
    (applyA c9State (.deleteLayer (some 0))).activeLayerId = some 1 := by
  obtain ⟨d1, d2, _⟩ := delete_cut_last_and_reselect (demoInit 2 2 1)
  obtain ⟨_, _, e3⟩ := delete_cut_last_and_reselect c9State
  have hcut := d2 0
    ⟨⟨0, "Layer 1", true, false, 1, some (createOffscreenCanvas 2 2), 0⟩,
      some (createOffscreenCanvas 2 2)⟩ (by decide) (by decide) (by decide)
  have hdel := e3 0
    ⟨⟨0, "Layer 1", true, false, 1, some (createOffscreenCanvas 1 1), 0⟩,
      some (createOffscreenCanvas 1 1)⟩
    ⟨⟨1, "Layer 2", true, false, 1, some (createOffscreenCanvas 1 1), 0⟩,
      some (createOffscreenCanvas 1 1)⟩
    (by decide) (by decide) (by decide) (by decide)
  exact ⟨d1 (some 0) (by decide), hcut.1, hcut.2.2.2.2, hdel.1, hdel.2⟩

end SpriteStack
